import Mathlib

/-!
# Verification of the prism-iq/flow extraction pipeline

Shallow embedding of the `services/llm` pipeline: the entity data model
(Python dicts of dynamic values), the entity merger
(`src/aggregator/entity_merger.py`), the validation aggregator
(`src/aggregator/haiku_aggregator.py`), the extraction workers
(`src/workers/*.py`) and the query router (`src/router/query_router.py`).

Python numbers (int and finite float) are modelled as rationals (`ℚ`),
with dedicated values for the non-finite floats `json.loads` can
produce; Python `None` is `Value.null`; Python dicts are association
lists with first-match lookup and in-place overwrite on assignment,
matching insertion-order semantics.
-/

-- Let concrete rational arithmetic evaluate under `decide`.
unseal Rat.mul Rat.add Rat.sub Rat.inv

/-- A dynamic Python/JSON value, as stored in the pipeline's entity dicts.
Python `int` and finite `float` are collapsed into `num`; no behaviour
verified here depends on an int/float distinction. The non-finite floats
`float('nan')`, `float('inf')` and `float('-inf')` — producible by
`json.loads` from the literals `NaN`, `Infinity` and `-Infinity` — get
dedicated constructors so that parse acceptance matches `json.loads`;
arithmetic on them lies outside the rational model and is exercised by no
verified claim. -/
inductive Value where
  | null : Value
  | bool : Bool → Value
  | num : ℚ → Value
  | str : String → Value
  | arr : List Value → Value
  | obj : List (String × Value) → Value
  | nan : Value
  | inf : Value
  | ninf : Value

mutual

/-- Structural equality on values; it coincides with Python's `==` for
JSON-like data except on `float('nan')` (Python's `nan != nan` is not
modelled — no verified claim compares NaN values). -/
def Value.beq : Value → Value → Bool
  | .null, .null => true
  | .bool a, .bool b => a == b
  | .num a, .num b => a == b
  | .str a, .str b => a == b
  | .arr xs, .arr ys => Value.beqList xs ys
  | .obj xs, .obj ys => Value.beqObj xs ys
  | .nan, .nan => true
  | .inf, .inf => true
  | .ninf, .ninf => true
  | _, _ => false

def Value.beqList : List Value → List Value → Bool
  | [], [] => true
  | x :: xs, y :: ys => Value.beq x y && Value.beqList xs ys
  | _, _ => false

def Value.beqObj : List (String × Value) → List (String × Value) → Bool
  | [], [] => true
  | (k, v) :: xs, (k', v') :: ys => k == k' && Value.beq v v' && Value.beqObj xs ys
  | _, _ => false

end

theorem Value.beq_iff : ∀ a b : Value, (Value.beq a b = true) ↔ a = b := by
  intro a
  induction a using Value.rec
    (motive_2 := fun xs => ∀ ys, (Value.beqList xs ys = true) ↔ xs = ys)
    (motive_3 := fun xs => ∀ ys, (Value.beqObj xs ys = true) ↔ xs = ys)
    (motive_4 := fun p => ∀ (k : String) (v : Value),
      ((p.1 == k && Value.beq p.2 v) = true) ↔ p = (k, v)) <;>
  first
  | (intro b; cases b <;> simp_all [Value.beq, Value.beqList, Value.beqObj])
  | (rename_i ys; cases ys <;> simp_all [Value.beq, Value.beqList, Value.beqObj])

instance : DecidableEq Value := fun a b => decidable_of_iff _ (Value.beq_iff a b)

instance : Inhabited Value := ⟨.null⟩

/-- A Python dict with string keys, in insertion order. -/
abbrev PyDict := List (String × Value)

namespace Value

/-- Python truthiness (`bool(v)`): `None`, `False`, `0`, `""`, `[]`, `{}`
are falsy, everything else truthy. -/
def truthy : Value → Bool
  | .null => false
  | .bool b => b
  | .num q => q != 0
  | .str s => s != ""
  | .arr xs => !xs.isEmpty
  | .obj kvs => !kvs.isEmpty
  | .nan => true
  | .inf => true
  | .ninf => true

end Value

namespace PyDict

/-- `d.get(k)` with default `None`: returns the stored value, or `null`
when the key is absent (Python's `dict.get` returns `None` then, which is
indistinguishable from a stored `None`). -/
def getN (d : PyDict) (k : String) : Value :=
  match d.lookup k with
  | some v => v
  | none => .null

/-- `d.get(k, default)`. -/
def getD (d : PyDict) (k : String) (dflt : Value) : Value :=
  match d.lookup k with
  | some v => v
  | none => dflt

/-- Python dict assignment `d[k] = v`: overwrites in place (keeping the
key's original position) or appends a new key at the end. -/
def set : PyDict → String → Value → PyDict
  | [], k, v => [(k, v)]
  | (k', v') :: t, k, v =>
    if k' = k then (k, v) :: t else (k', v') :: set t k v

@[simp] theorem lookup_set_self (d : PyDict) (k : String) (v : Value) :
    (d.set k v).lookup k = some v := by
  induction d with
  | nil => simp [set, List.lookup]
  | cons head t ih =>
    obtain ⟨k', v'⟩ := head
    by_cases h : k' = k
    · simp [set, h, List.lookup]
    · cases hb : k == k' with
      | true => simp_all
      | false => simp [set, h, List.lookup, hb, ih]

@[simp] theorem lookup_set_ne (d : PyDict) (k k' : String) (v : Value)
    (h : k' ≠ k) : (d.set k v).lookup k' = d.lookup k' := by
  induction d with
  | nil =>
    cases hb : k' == k with
    | true => simp_all
    | false => simp [set, List.lookup, hb]
  | cons head t ih =>
    obtain ⟨k₀, v₀⟩ := head
    by_cases h₀ : k₀ = k
    · subst h₀
      cases hb : k' == k₀ with
      | true => simp_all
      | false => simp [set, List.lookup, hb]
    · simp only [set, if_neg h₀]
      cases hb : k' == k₀ with
      | true => simp [List.lookup, hb]
      | false => simp [List.lookup, hb, ih]

end PyDict

/-! ## difflib.SequenceMatcher (ratio only)

Model of `difflib.SequenceMatcher(None, a, b).ratio()` as used by the
entity merger. With `isjunk = None` the junk set is empty, so the
junk-extension phases of `find_longest_match` never fire; the autojunk
heuristic (for `len(b) >= 200`) only removes "popular" elements from the
`b2j` index. -/

namespace SeqMatcher

/-- Positions of character `c` in `b` (ascending), the `b2j` entry before
autojunk filtering. -/
def positions (b : List Char) (c : Char) : List ℕ :=
  (List.range b.length).filter fun j => b.getD j ' ' = c

/-- The autojunk rule: for `len(b) >= 200`, characters occurring more than
`len(b) // 100 + 1` times are dropped from `b2j`. -/
def isPopular (b : List Char) (c : Char) : Bool :=
  200 ≤ b.length && b.length / 100 + 1 < (positions b c).length

/-- `b2j` lookup: positions of `c` in `b`, with popular characters removed. -/
def b2j (b : List Char) (c : Char) : List ℕ :=
  if isPopular b c then [] else positions b c

/-- Result of `find_longest_match`. -/
structure Match where
  besti : ℕ
  bestj : ℕ
  bestsize : ℕ
deriving DecidableEq, Repr

/-- The dynamic-programming core of `find_longest_match`: longest common
junk-free block of `a[alo:ahi]` and `b[blo:bhi]`. `j2len` maps `j` to the
length of the longest match ending at `b[j]` for the previous `i`. -/
def flmCore (a b : List Char) (alo ahi blo bhi : ℕ) : Match :=
  let step := fun (st : List (ℕ × ℕ) × Match) (i : ℕ) =>
    let js := (b2j b (a.getD i ' ')).filter fun j => blo ≤ j && j < bhi
    let inner := js.foldl
      (fun (st2 : List (ℕ × ℕ) × Match) j =>
        let k := ((st.1.lookup (j - 1)).getD 0) + 1
        let best := st2.2
        ((j, k) :: st2.1,
         if best.bestsize < k then ⟨i + 1 - k, j + 1 - k, k⟩ else best))
      ([], st.2)
    (inner.1, inner.2)
  ((List.range' alo (ahi - alo)).foldl step ([], ⟨alo, blo, 0⟩)).2

/-- Length of the leftward extension of a match by equal characters
(`while besti > alo and bestj > blo and a[besti-1] == b[bestj-1]`). -/
def extendLeft (a b : List Char) (alo blo : ℕ) :
    ℕ → ℕ → ℕ → ℕ
  | _, _, 0 => 0
  | besti, bestj, fuel + 1 =>
    if alo < besti && blo < bestj &&
        a.getD (besti - 1) ' ' = b.getD (bestj - 1) ' ' then
      1 + extendLeft a b alo blo (besti - 1) (bestj - 1) fuel
    else 0

/-- Length of the rightward extension of a match by equal characters. -/
def extendRight (a b : List Char) (ahi bhi : ℕ) :
    ℕ → ℕ → ℕ → ℕ
  | _, _, 0 => 0
  | ei, ej, fuel + 1 =>
    if ei < ahi && ej < bhi && a.getD ei ' ' = b.getD ej ' ' then
      1 + extendRight a b ahi bhi (ei + 1) (ej + 1) fuel
    else 0

/-- `find_longest_match(alo, ahi, blo, bhi)`: DP core plus the non-junk
extension phases (the junk phases are vacuous with `isjunk = None`). -/
def findLongestMatch (a b : List Char) (alo ahi blo bhi : ℕ) : Match :=
  let m := flmCore a b alo ahi blo bhi
  let dl := extendLeft a b alo blo m.besti m.bestj m.besti
  let besti := m.besti - dl
  let bestj := m.bestj - dl
  let bestsize := m.bestsize + dl
  let dr := extendRight a b ahi bhi (besti + bestsize) (bestj + bestsize) ahi
  ⟨besti, bestj, bestsize + dr⟩

/-- Total size of all matching blocks (the recursive split of
`get_matching_blocks`, summed). -/
def matchTotal (a b : List Char) : ℕ → ℕ → ℕ → ℕ → ℕ → ℕ
  | 0, _, _, _, _ => 0
  | fuel + 1, alo, ahi, blo, bhi =>
    let m := findLongestMatch a b alo ahi blo bhi
    if m.bestsize = 0 then 0
    else
      m.bestsize + matchTotal a b fuel alo m.besti blo m.bestj +
        matchTotal a b fuel (m.besti + m.bestsize) ahi
          (m.bestj + m.bestsize) bhi

/-- `SequenceMatcher(None, a, b).ratio()`:
`2 * (total matched) / (len(a) + len(b))`, and `1.0` when both empty. -/
def ratio (sa sb : String) : ℚ :=
  let a := sa.data
  let b := sb.data
  if a.length + b.length = 0 then 1
  else
    (2 * matchTotal a b (a.length + b.length + 1) 0 a.length 0 b.length : ℚ) /
      (a.length + b.length)

end SeqMatcher

/-! ## String helpers for the comparators

`str.lower()` / `str.split()` / `str(value)` as used by
`entity_merger.py`. The pipeline's strings are ASCII, so `lower` is
modelled on ASCII; `pyRepr` of numbers approximates CPython float
formatting (it is only ever used for the string-length tie-break in
`_merge_two_entities` and for `_generic_similarity`, neither of which any
verified claim depends on numerically). -/

/-- ASCII `str.lower()`. -/
def asciiLower (c : Char) : Char :=
  if 'A' ≤ c ∧ c ≤ 'Z' then Char.ofNat (c.toNat + 32) else c

/-- `s.lower()` (ASCII). -/
def pyLower (s : String) : String :=
  ⟨s.data.map asciiLower⟩

/-- ASCII `str.capitalize()`: first character upper-cased, the rest
lower-cased. -/
def pyCapitalize (s : String) : String :=
  match s.data with
  | [] => ""
  | c :: rest =>
    ⟨(if 'a' ≤ c ∧ c ≤ 'z' then Char.ofNat (c.toNat - 32) else c) ::
      rest.map asciiLower⟩

/-- Split on separator characters, keeping empty tokens (the behaviour of
Python's `str.split(sep)` / `re.split` on a character class). -/
def splitOnPred (p : Char → Bool) (cs : List Char) : List String :=
  go cs []
where
  go : List Char → List Char → List String
    | [], cur => [⟨cur.reverse⟩]
    | c :: rest, cur =>
      if p c then ⟨cur.reverse⟩ :: go rest []
      else go rest (c :: cur)

/-- `s.split()`: split on whitespace runs, dropping empty tokens. -/
def pySplitWs (s : String) : List String :=
  (splitOnPred Char.isWhitespace s.data).filter (· ≠ "")

/-- Whether `c` is a regex word character (`\w`, ASCII fragment). -/
def isWordChar (c : Char) : Bool :=
  c.isAlphanum || c = '_'

/-- Index of the first occurrence of `c`. -/
def idxOfChar (c : Char) (cs : List Char) : Option ℕ :=
  go cs 0
where
  go : List Char → ℕ → Option ℕ
    | [], _ => none
    | x :: t, i => if x = c then some i else go t (i + 1)

/-- The regex search `re.search(r'\{[\s\S]*\}', text)` (and its `[`/`]`
variant): the span from the first `openC` that is followed by some
`closeC`, through the last `closeC` of the whole text. -/
def findSpan (openC closeC : Char) (s : String) : Option String :=
  let cs := s.data
  match idxOfChar closeC cs.reverse with
  | none => none
  | some r =>
    let q := cs.length - 1 - r
    match idxOfChar openC (cs.take q) with
    | none => none
    | some p => some ⟨(cs.drop p).take (q - p + 1)⟩

/-- The string content of a value, `""` for non-strings (`entity_merger`
only ever calls `.lower()` on these fields; a non-string would raise
`AttributeError` in Python and cannot occur in pipeline entities). -/
def Value.asStr : Value → String
  | .str s => s
  | _ => ""

/-- Decimal-ish rendering of a rational, standing in for CPython's
`str(int)` / `repr(float)`. -/
def ratRepr (q : ℚ) : String :=
  if q.den = 1 then toString q.num
  else toString q.num ++ "/" ++ toString q.den

mutual

/-- `str(v)` for a value (Python `repr` for nested data). String escaping
inside `repr` is not reproduced. -/
def Value.pyStr : Value → String
  | .null => "None"
  | .bool b => if b then "True" else "False"
  | .num q => ratRepr q
  | .str s => s
  | .arr xs => "[" ++ Value.pyStrList xs ++ "]"
  | .obj kvs => "\x7b" ++ Value.pyStrObj kvs ++ "\x7d"
  | .nan => "nan"
  | .inf => "inf"
  | .ninf => "-inf"

/-- Elements inside containers render with `repr`, which quotes strings. -/
def Value.pyStrRepr : Value → String
  | .null => "None"
  | .bool b => if b then "True" else "False"
  | .num q => ratRepr q
  | .str s => "'" ++ s ++ "'"
  | .arr xs => "[" ++ Value.pyStrList xs ++ "]"
  | .obj kvs => "\x7b" ++ Value.pyStrObj kvs ++ "\x7d"
  | .nan => "nan"
  | .inf => "inf"
  | .ninf => "-inf"

def Value.pyStrList : List Value → String
  | [] => ""
  | [x] => Value.pyStrRepr x
  | x :: xs => Value.pyStrRepr x ++ ", " ++ Value.pyStrList xs

def Value.pyStrObj : List (String × Value) → String
  | [] => ""
  | [(k, v)] => "'" ++ k ++ "': " ++ Value.pyStrRepr v
  | (k, v) :: kvs => "'" ++ k ++ "': " ++ Value.pyStrRepr v ++ ", " ++ Value.pyStrObj kvs

end

/-- `len(str(v))`. -/
def Value.pyStrLen (v : Value) : ℕ :=
  v.pyStr.length

/-! ## EntityMerger (`src/aggregator/entity_merger.py`) -/

/-- A scored pair of entity indices proposed for merging
(`MergeCandidate`). -/
structure MergeCandidate where
  index_a : ℕ
  index_b : ℕ
  similarity : ℚ
  merge_type : String
deriving DecidableEq, Repr

namespace EntityMerger

/-- The constructor default `similarity_threshold=0.85`. -/
def defaultThreshold : ℚ := 85 / 100

/-- `_person_similarity`. -/
def personSimilarity (a b : PyDict) : ℚ × String :=
  let email_a := pyLower (a.getD "email" (.str "")).asStr
  let email_b := pyLower (b.getD "email" (.str "")).asStr
  if email_a ≠ "" ∧ email_b ≠ "" ∧ email_a = email_b then
    (1, "email_match")
  else
    let name_a := pyLower (a.getD "name" (.str "")).asStr
    let name_b := pyLower (b.getD "name" (.str "")).asStr
    if name_a ≠ "" ∧ name_b ≠ "" then
      let sim := SeqMatcher.ratio name_a name_b
      if 9 / 10 < sim then (sim, "name_match")
      else
        let parts_a := (pySplitWs name_a).dedup
        let parts_b := (pySplitWs name_b).dedup
        let inter := parts_a.filter (· ∈ parts_b)
        if inter ≠ [] then
          ((inter.length : ℚ) / max parts_a.length parts_b.length,
            "name_overlap")
        else (0, "no_match")
    else (0, "no_match")

/-- One pass of `re.sub(rf'\b{suffix}\.?\b', '', name)`: removes
non-overlapping whole-word occurrences of `suffix`, each optionally
followed by `.` when the character after the dot is a word character
(the regex backtracks to drop the dot otherwise). -/
def subWordOcc (suffix : List Char) (s : List Char) : List Char :=
  go s 0 s.length
where
  matchLen (rest : List Char) (prev : Option Char) : Option ℕ :=
    -- word boundary before the suffix: previous char absent or non-word
    if (match prev with | some p => isWordChar p | none => false) then none
    else if rest.take suffix.length = suffix then
      let after := rest.drop suffix.length
      match after with
      | '.' :: c :: _ =>
        if isWordChar c then some (suffix.length + 1)
        else if isWordChar '.' then none else some suffix.length
      | '.' :: [] => some suffix.length
      | c :: _ => if isWordChar c then none else some suffix.length
      | [] => some suffix.length
    else none
  go (rest : List Char) (pos : ℕ) : ℕ → List Char
    | 0 => rest
    | fuel + 1 =>
      match rest with
      | [] => []
      | c :: t =>
        match matchLen rest (if pos = 0 then none else some (s.getD (pos - 1) ' ')) with
        | some n =>
          if n = 0 then c :: go t (pos + 1) fuel
          else go (rest.drop n) (pos + n) fuel
        | none => c :: go t (pos + 1) fuel

/-- `_normalize_org_name`: lower-case, strip legal-entity suffixes as
whole words, collapse whitespace. -/
def normalizeOrgName (name : String) : String :=
  let lowered := (pyLower name).data
  let suffixes := ["inc", "llc", "ltd", "corp", "corporation", "company", "co"]
  let stripped := suffixes.foldl (fun acc suf => subWordOcc suf.data acc) lowered
  " ".intercalate (pySplitWs ⟨stripped⟩)

/-- `_org_similarity`. -/
def orgSimilarity (a b : PyDict) : ℚ × String :=
  let name_a := normalizeOrgName (a.getD "name" (.str "")).asStr
  let name_b := normalizeOrgName (b.getD "name" (.str "")).asStr
  if name_a = name_b then (1, "exact_match")
  else (SeqMatcher.ratio name_a name_b, "fuzzy_match")

/-- `_date_similarity`: equal truthy `normalized_date` fields, else 0. -/
def dateSimilarity (a b : PyDict) : ℚ × String :=
  let norm_a := a.getN "normalized_date"
  let norm_b := b.getN "normalized_date"
  if norm_a.truthy ∧ norm_b.truthy ∧ norm_a = norm_b then (1, "date_match")
  else (0, "no_match")

/-- `_amount_similarity`: equal truthy `normalized_value` ⇒ 1.0
(`exact_amount`); near-equal ratio > 0.99 ⇒ that ratio
(`similar_amount`); else 0 (`no_match`). A non-numeric truthy pair would
raise `TypeError` in `min`/`/` in Python; that case is unreachable for
worker-produced entities and modelled as `no_match`. -/
def amountSimilarity (a b : PyDict) : ℚ × String :=
  let val_a := a.getD "normalized_value" (.num 0)
  let val_b := b.getD "normalized_value" (.num 0)
  if val_a.truthy ∧ val_b.truthy then
    if val_a = val_b then (1, "exact_amount")
    else
      match val_a, val_b with
      | .num x, .num y =>
        let r := if 0 < max x y then min x y / max x y else 0
        if 99 / 100 < r then (r, "similar_amount") else (0, "no_match")
      | _, _ => (0, "no_match")
  else (0, "no_match")

/-- `_generic_similarity`: character ratio of the `str()` renderings. -/
def genericSimilarity (a b : PyDict) : ℚ × String :=
  (SeqMatcher.ratio (Value.obj a).pyStr (Value.obj b).pyStr, "generic")

/-- `_calculate_similarity`: cross-category pairs score 0 by
construction; same-category pairs dispatch on the `_source_worker` tag. -/
def calcSimilarity (a b : PyDict) : ℚ × String :=
  let type_a := a.getD "_source_worker" (.str "")
  let type_b := b.getD "_source_worker" (.str "")
  if type_a ≠ type_b then (0, "different_type")
  else if type_a = .str "person" then personSimilarity a b
  else if type_a = .str "org" then orgSimilarity a b
  else if type_a = .str "date" then dateSimilarity a b
  else if type_a = .str "amount" then amountSimilarity a b
  else genericSimilarity a b

/-- `find_duplicates`: all pairs `i < j` whose similarity reaches the
threshold, in lexicographic `(i, j)` order. -/
def findDuplicates (th : ℚ) (entities : List PyDict) : List MergeCandidate :=
  (List.range entities.length).flatMap fun i =>
    (List.range' (i + 1) (entities.length - (i + 1))).filterMap fun j =>
      let st := calcSimilarity (entities.getD i []) (entities.getD j [])
      if th ≤ st.1 then some ⟨i, j, st.1, st.2⟩ else none

/-- Stable insertion into a similarity-descending list: the inserted
candidate precedes later candidates of equal similarity, matching
Python's stable `sorted(..., reverse=True)`. -/
def insertDesc (c : MergeCandidate) : List MergeCandidate → List MergeCandidate
  | [] => [c]
  | d :: t =>
    if d.similarity ≤ c.similarity then c :: d :: t else d :: insertDesc c t

/-- `sorted(candidates, key=lambda x: x.similarity, reverse=True)`. -/
def sortDesc : List MergeCandidate → List MergeCandidate
  | [] => []
  | c :: t => insertDesc c (sortDesc t)

/-- The greedy selection walk of `merge_entities`: take each candidate
whose two indices are both still unconsumed, marking them consumed. -/
def selectGo : List MergeCandidate → List ℕ → List MergeCandidate
  | [], _ => []
  | c :: rest, used =>
    if c.index_a ∈ used ∨ c.index_b ∈ used then selectGo rest used
    else c :: selectGo rest (c.index_a :: c.index_b :: used)

/-- The candidates actually merged by `merge_entities`, in merge order. -/
def chosenCandidates (th : ℚ) (entities : List PyDict) : List MergeCandidate :=
  selectGo (sortDesc (findDuplicates th entities)) []

/-- All indices consumed by the chosen candidates (`merged_indices`). -/
def mergedIndices (chosen : List MergeCandidate) : List ℕ :=
  chosen.flatMap fun c => [c.index_a, c.index_b]

/-- `a.get('confidence', 0.5)` as a comparable number. A stored
non-numeric confidence would raise `TypeError` on comparison in Python
(unreachable in the pipeline); it is modelled as the 0.5 default. -/
def confOf (e : PyDict) : ℚ :=
  match e.lookup "confidence" with
  | some (.num q) => q
  | some (.bool b) => if b then 1 else 0
  | _ => 1 / 2

/-- `isinstance(v, (int, float))` — Python `bool` is an `int` subclass,
and the non-finite floats are floats. -/
def pyIsNumeric : Value → Bool
  | .num _ => true
  | .bool _ => true
  | .nan => true
  | .inf => true
  | .ninf => true
  | _ => false

/-- Field reconciliation for one key of `_merge_two_entities`. -/
def mergeVal (a b : PyDict) (k : String) : Value :=
  let val_a := a.getN k
  let val_b := b.getN k
  if val_a = .null then val_b
  else if val_b = .null then val_a
  else
    match val_a, val_b with
    | .arr xs, .arr ys => .arr ((xs ++ ys).dedup)
    | _, _ =>
      if pyIsNumeric val_a ∧ pyIsNumeric val_b then
        if confOf b ≤ confOf a then val_a else val_b
      else if val_b.pyStrLen ≤ val_a.pyStrLen then val_a
      else val_b

/-- `_merge_two_entities`: reconcile the union of both key sets, then
overwrite `confidence` with the max of the two (default 0.5 each). The
key-set union is iterated in one concrete order (Python iterates a `set`,
whose order is unspecified; all verified claims are lookup-based). -/
def mergeTwoEntities (a b : PyDict) : PyDict :=
  let allKeys := (a.map Prod.fst ++ b.map Prod.fst).dedup
  let merged : PyDict := allKeys.map fun k => (k, mergeVal a b k)
  PyDict.set merged "confidence" (.num (max (confOf a) (confOf b)))

/-- The output record of one merge: the reconciled dict plus
`_merged_from` / `_merge_confidence` provenance. -/
def mkMergedRecord (entities : List PyDict) (c : MergeCandidate) : PyDict :=
  PyDict.set
    (PyDict.set (mergeTwoEntities (entities.getD c.index_a []) (entities.getD c.index_b []))
      "_merged_from" (.arr [.num c.index_a, .num c.index_b]))
    "_merge_confidence" (.num c.similarity)

/-- `merge_entities`: greedy similarity-first merging, then passthrough of
all unconsumed originals in index order. -/
def mergeEntities (th : ℚ) (entities : List PyDict) : List PyDict :=
  if entities.isEmpty then []
  else
    let chosen := chosenCandidates th entities
    chosen.map (mkMergedRecord entities) ++
      (List.range entities.length).filterMap fun i =>
        if i ∈ mergedIndices chosen then none else some (entities.getD i [])

end EntityMerger

/-! ### Merger lemmas -/

namespace EntityMerger

/-- Whether candidate `c` consumes original index `i`. -/
def touches (i : ℕ) (c : MergeCandidate) : Bool :=
  c.index_a == i || c.index_b == i

theorem mem_insertDesc {c d : MergeCandidate} {l : List MergeCandidate} :
    c ∈ insertDesc d l ↔ c = d ∨ c ∈ l := by
  induction l with
  | nil => simp [insertDesc]
  | cons e t ih =>
    by_cases h : e.similarity ≤ d.similarity
    · simp [insertDesc, h]
    · simp only [insertDesc, if_neg h, List.mem_cons, ih]
      tauto

theorem mem_sortDesc {c : MergeCandidate} {l : List MergeCandidate} :
    c ∈ sortDesc l ↔ c ∈ l := by
  induction l with
  | nil => simp [sortDesc]
  | cons d t ih => simp [sortDesc, mem_insertDesc, ih]

theorem selectGo_subset {c : MergeCandidate} :
    ∀ {l : List MergeCandidate} {used : List ℕ}, c ∈ selectGo l used → c ∈ l := by
  intro l
  induction l with
  | nil => intro used h; simp [selectGo] at h
  | cons d t ih =>
    intro used h
    by_cases hd : d.index_a ∈ used ∨ d.index_b ∈ used
    · simp only [selectGo, if_pos hd] at h
      exact List.mem_cons_of_mem _ (ih h)
    · simp only [selectGo, if_neg hd, List.mem_cons] at h
      rcases h with h | h
      · exact h ▸ List.mem_cons_self _ _
      · exact List.mem_cons_of_mem _ (ih h)

theorem selectGo_countP_eq_zero {i : ℕ} :
    ∀ {l : List MergeCandidate} {used : List ℕ}, i ∈ used →
      (selectGo l used).countP (touches i) = 0 := by
  intro l
  induction l with
  | nil => intro used _; simp [selectGo]
  | cons d t ih =>
    intro used hu
    by_cases hd : d.index_a ∈ used ∨ d.index_b ∈ used
    · simpa [selectGo, if_pos hd] using ih hu
    · have hti : touches i d = false := by
        simp only [touches, Bool.or_eq_false_iff, beq_eq_false_iff_ne]
        constructor
        · intro h; exact hd (Or.inl (h ▸ hu))
        · intro h; exact hd (Or.inr (h ▸ hu))
      have : i ∈ d.index_a :: d.index_b :: used := by simp [hu]
      simp [selectGo, if_neg hd, List.countP_cons, hti, ih this]

theorem selectGo_countP_le_one {i : ℕ} :
    ∀ {l : List MergeCandidate} {used : List ℕ},
      (selectGo l used).countP (touches i) ≤ 1 := by
  intro l
  induction l with
  | nil => intro used; simp [selectGo]
  | cons d t ih =>
    intro used
    by_cases hd : d.index_a ∈ used ∨ d.index_b ∈ used
    · simpa [selectGo, if_pos hd] using ih
    · by_cases hti : touches i d = true
      · have hmem : i ∈ d.index_a :: d.index_b :: used := by
          have h := hti
          simp only [touches, Bool.or_eq_true, beq_iff_eq] at h
          rcases h with h | h <;> subst h <;> simp
        simp [selectGo, if_neg hd, List.countP_cons, hti,
          selectGo_countP_eq_zero hmem]
      · have hf : touches i d = false := by simpa using hti
        simp only [selectGo, if_neg hd, List.countP_cons, hf]
        simpa using ih

theorem mem_mergedIndices {i : ℕ} {chosen : List MergeCandidate} :
    i ∈ mergedIndices chosen ↔ ∃ c ∈ chosen, touches i c = true := by
  simp only [mergedIndices, List.mem_flatMap]
  constructor
  · rintro ⟨c, hc, h⟩
    refine ⟨c, hc, ?_⟩
    simp only [List.mem_cons, List.not_mem_nil, or_false] at h
    simp only [touches, Bool.or_eq_true, beq_iff_eq]
    rcases h with h | h
    · exact Or.inl h.symm
    · exact Or.inr h.symm
  · rintro ⟨c, hc, h⟩
    refine ⟨c, hc, ?_⟩
    simp only [touches, Bool.or_eq_true, beq_iff_eq] at h
    simp only [List.mem_cons, List.not_mem_nil, or_false]
    rcases h with h | h
    · exact Or.inl h.symm
    · exact Or.inr h.symm

theorem mem_findDuplicates {th : ℚ} {entities : List PyDict}
    {c : MergeCandidate} (h : c ∈ findDuplicates th entities) :
    th ≤ c.similarity ∧
      c.similarity =
        (calcSimilarity (entities.getD c.index_a [])
          (entities.getD c.index_b [])).1 := by
  simp only [findDuplicates, List.mem_flatMap, List.mem_filterMap,
    List.mem_range] at h
  obtain ⟨i, hi, j, hj, hc⟩ := h
  split at hc
  · cases hc
    exact ⟨by assumption, rfl⟩
  · cases hc

end EntityMerger

/-! ## JSON (`json.loads`)

A recursive-descent JSON reader producing `Value`, modelling `json.loads`
on the oracle's response text. Numbers parse to rationals; string escape
handling covers the JSON escapes (`\uXXXX` as the raw code unit). -/

namespace Json

/-- JSON insignificant whitespace. -/
def isJsonWs (c : Char) : Bool :=
  c = ' ' || c = '\t' || c = '\n' || c = '\r'

/-- Skip leading JSON whitespace. -/
def skipWs (cs : List Char) : List Char :=
  cs.dropWhile isJsonWs

/-- Value of a hexadecimal digit. -/
def hexVal (c : Char) : Option ℕ :=
  if '0' ≤ c ∧ c ≤ '9' then some (c.toNat - '0'.toNat)
  else if 'a' ≤ c ∧ c ≤ 'f' then some (c.toNat - 'a'.toNat + 10)
  else if 'A' ≤ c ∧ c ≤ 'F' then some (c.toNat - 'A'.toNat + 10)
  else none

/-- Read the remainder of a JSON string literal (after the opening `"`). -/
def readString : List Char → Option (List Char × List Char)
  | [] => none
  | '"' :: rest => some ([], rest)
  | '\\' :: e :: rest =>
    match e with
    | '"' => (readString rest).map fun (s, r) => ('"' :: s, r)
    | '\\' => (readString rest).map fun (s, r) => ('\\' :: s, r)
    | '/' => (readString rest).map fun (s, r) => ('/' :: s, r)
    | 'b' => (readString rest).map fun (s, r) => ('\x08' :: s, r)
    | 'f' => (readString rest).map fun (s, r) => ('\x0c' :: s, r)
    | 'n' => (readString rest).map fun (s, r) => ('\n' :: s, r)
    | 'r' => (readString rest).map fun (s, r) => ('\r' :: s, r)
    | 't' => (readString rest).map fun (s, r) => ('\t' :: s, r)
    | 'u' =>
      match rest with
      | h1 :: h2 :: h3 :: h4 :: rest' =>
        match hexVal h1, hexVal h2, hexVal h3, hexVal h4 with
        | some a, some b, some c, some d =>
          let n := ((a * 16 + b) * 16 + c) * 16 + d
          let ch := if h : n.isValidChar then Char.ofNatAux n h else ' '
          (readString rest').map fun (s, r) => (ch :: s, r)
        | _, _, _, _ => none
      | _ => none
    | _ => none
  | c :: rest =>
    -- `json.loads` is strict: an unescaped control character (U+0000 to
    -- U+001F) inside a string literal raises `JSONDecodeError`.
    if c.toNat < 32 then none
    else (readString rest).map fun (s, r) => (c :: s, r)

/-- 10^n over ℚ, kept as a plain recursion so it evaluates. -/
def pow10 : ℕ → ℚ
  | 0 => 1
  | n + 1 => 10 * pow10 n

/-- Read a run of decimal digits, returning its value and length. -/
def readDigits (cs : List Char) : ℕ × ℕ × List Char :=
  go cs 0 0
where
  go : List Char → ℕ → ℕ → ℕ × ℕ × List Char
    | [], acc, len => (acc, len, [])
    | c :: rest, acc, len =>
      if '0' ≤ c ∧ c ≤ '9' then go rest (acc * 10 + (c.toNat - '0'.toNat)) (len + 1)
      else (acc, len, c :: rest)

/-- Read a JSON number per `json.loads`'s `NUMBER_RE`
(`(-?(?:0|[1-9]\d*))(\.\d+)?([eE][-+]?\d+)?`): the integer part is a
single `0` or starts with a nonzero digit, so a leading-zero integer like
`01` matches only its `0` and the leftover digit makes the surrounding
parse fail, exactly as in Python. -/
def readNumber (cs : List Char) : Option (ℚ × List Char) := do
  let (neg, cs) := match cs with
    | '-' :: rest => (true, rest)
    | _ => (false, cs)
  let (ip, cs) ← match cs with
    | '0' :: rest => some ((0 : ℕ), rest)
    | c :: rest =>
      if '1' ≤ c ∧ c ≤ '9' then
        let (v, _, rest') := readDigits (c :: rest)
        some (v, rest')
      else none
    | [] => none
  let (q, cs) :=
    match cs with
    | '.' :: rest =>
      let (fp, fl, rest') := readDigits rest
      if fl = 0 then ((ip : ℚ), '.' :: rest)
      else ((ip : ℚ) + (fp : ℚ) / pow10 fl, rest')
    | _ => ((ip : ℚ), cs)
  let (q, cs) :=
    match cs with
    | e :: rest =>
      if e = 'e' ∨ e = 'E' then
        let (esign, rest') := match rest with
          | '+' :: r => (false, r)
          | '-' :: r => (true, r)
          | r => (false, r)
        let (ev, el, rest'') := readDigits rest'
        if el = 0 then (q, e :: rest)
        else if esign then (q / pow10 ev, rest'') else (q * pow10 ev, rest'')
      else (q, e :: rest)
    | [] => (q, [])
  some (if neg then -q else q, cs)

/-- Build the Python dict from parsed object members: a repeated key
keeps its first position and takes its last value (`dict` insertion
semantics, which `json.loads` uses via `object_pairs`). -/
def mkObj (kvs : List (String × Value)) : PyDict :=
  kvs.foldl (fun d kv => PyDict.set d kv.1 kv.2) []

mutual

/-- Read one JSON value (fuel-bounded recursive descent). Besides the
JSON grammar, `json.loads` accepts the non-standard constants `NaN`,
`Infinity` and `-Infinity` (its default `parse_constant` maps them to
the corresponding floats). -/
def readValue : ℕ → List Char → Option (Value × List Char)
  | 0, _ => none
  | fuel + 1, cs =>
    match skipWs cs with
    | 'n' :: 'u' :: 'l' :: 'l' :: r => some (.null, r)
    | 't' :: 'r' :: 'u' :: 'e' :: r => some (.bool true, r)
    | 'f' :: 'a' :: 'l' :: 's' :: 'e' :: r => some (.bool false, r)
    | 'N' :: 'a' :: 'N' :: r => some (.nan, r)
    | 'I' :: 'n' :: 'f' :: 'i' :: 'n' :: 'i' :: 't' :: 'y' :: r =>
      some (.inf, r)
    | '-' :: 'I' :: 'n' :: 'f' :: 'i' :: 'n' :: 'i' :: 't' :: 'y' :: r =>
      some (.ninf, r)
    | '"' :: r => (readString r).map fun (s, r') => (.str ⟨s⟩, r')
    | '[' :: r =>
      (match skipWs r with
       | ']' :: r' => some (.arr [], r')
       | r' => (readElems fuel r').map fun (xs, r'') => (.arr xs, r''))
    | '{' :: r =>
      (match skipWs r with
       | '}' :: r' => some (.obj [], r')
       | r' => (readMembers fuel r').map fun (kvs, r'') => (.obj (mkObj kvs), r''))
    | r => (readNumber r).map fun (q, r') => (.num q, r')

/-- Read comma-separated array elements up to the closing `]`. -/
def readElems : ℕ → List Char → Option (List Value × List Char)
  | 0, _ => none
  | fuel + 1, cs => do
    let (v, rest) ← readValue fuel cs
    match skipWs rest with
    | ',' :: r => (readElems fuel r).map fun (xs, r') => (v :: xs, r')
    | ']' :: r => some ([v], r)
    | _ => none

/-- Read comma-separated object members up to the closing `}`. -/
def readMembers : ℕ → List Char → Option (List (String × Value) × List Char)
  | 0, _ => none
  | fuel + 1, cs =>
    match skipWs cs with
    | '"' :: r => do
      let (k, rest) ← readString r
      match skipWs rest with
      | ':' :: r' => do
        let (v, rest') ← readValue fuel r'
        match skipWs rest' with
        | ',' :: r'' => (readMembers fuel r'').map fun (kvs, r3) => ((⟨k⟩, v) :: kvs, r3)
        | '}' :: r'' => some ([(⟨k⟩, v)], r'')
        | _ => none
      | _ => none
    | _ => none

end

/-- `json.loads(s)`: the whole input must be one JSON value plus
whitespace. -/
def parse (s : String) : Option Value :=
  match readValue (s.length + 2) s.data with
  | some (v, rest) => if skipWs rest = [] then some v else none
  | none => none

end Json

/-! ## HaikuAggregator (`src/aggregator/haiku_aggregator.py`)

The remote oracle call (`_call_haiku`) is HTTP I/O; it is modelled by an
`OracleOutcome`: `failure` stands for every exception raised inside the
`try` of `validate_and_aggregate` before a response body is obtained
(transport error, timeout, or the explicit raise on a non-200 status),
and `success body` for a returned response text. -/

/-- `ValidationStatus`. -/
inductive ValidationStatus where
  | valid
  | invalid
  | needs_review
  | merged
deriving DecidableEq, Repr

/-- `ValidationResult`. The Python dataclass declares `confidence: float`,
`corrections: list`, etc. but never enforces them, and the parse path can
store arbitrary JSON data in them, so the fields are dynamic values here.
`entities` holds the Python list as a `Value.arr`. -/
structure ValidationResult where
  status : ValidationStatus
  confidence : Value
  entities : Value
  corrections : Value
  reasoning : Value
  graph_operations : Value
deriving DecidableEq

/-- Outcome of the remote oracle call. -/
inductive OracleOutcome where
  | failure
  | success (body : String)
deriving DecidableEq, Repr

/-- A Python exception escaping `_parse_validation_response` (a dynamic
typing error while applying oracle data); caught by the `except` in
`validate_and_aggregate`. -/
inductive PyErr where
  | typeError
deriving DecidableEq, Repr

namespace HaikuAggregator

/-- `k.startswith('_')`. -/
def startsUnderscore (s : String) : Bool :=
  match s.data with
  | '_' :: _ => true
  | _ => false

/-- The passthrough label map `{'date': 'Date', 'person': 'Person',
'org': 'Organization', 'amount': 'Amount'}`. -/
def labelMap : List (String × String) :=
  [("date", "Date"), ("person", "Person"), ("org", "Organization"),
   ("amount", "Amount")]

/-- `_passthrough_validation`: status `valid`, confidence 0.7, no
corrections, entities unchanged, one `CREATE_NODE` per entity labelled by
`label_map` over `_source_worker` (default `general` ⇒ `Entity`), with
underscore-prefixed keys stripped from the properties. -/
def passthroughValidation (entities : List PyDict) : ValidationResult :=
  let graph_ops := entities.map fun e =>
    let workerType := PyDict.getD e "_source_worker" (.str "general")
    let label := match workerType with
      | .str w => (labelMap.lookup w).getD "Entity"
      | _ => "Entity"
    Value.obj [("operation", .str "CREATE_NODE"), ("label", .str label),
               ("properties", .obj (e.filter fun kv => ¬ startsUnderscore kv.1))]
  { status := .valid
    confidence := .num (7 / 10)
    entities := .arr (entities.map .obj)
    corrections := .arr []
    reasoning := .str "Passthrough validation (Haiku disabled)"
    graph_operations := .arr graph_ops }

/-- The regex search `re.search(r'\{[\s\S]*\}', response)`. -/
def findJsonSpan (s : String) : Option String :=
  findSpan '{' '}' s

/-- `sorted(indices, reverse=True)` over numeric indices. -/
def sortNumsDesc : List ℚ → List ℚ
  | [] => []
  | q :: t => insertQ q (sortNumsDesc t)
where
  insertQ (q : ℚ) : List ℚ → List ℚ
    | [] => [q]
    | r :: t => if r ≤ q then q :: r :: t else r :: insertQ q t

/-- `validated.pop(idx)` for an in-range index (negative indices count
from the end, as in Python). A fractional index raises `TypeError`; that
an integral `float` like `2.0` also would in Python is invisible here by
the int/float collapse into `ℚ` (no verified claim depends on it). -/
def popAt (xs : List Value) (idx : ℚ) : Except PyErr (List Value) :=
  if idx.den ≠ 1 then .error .typeError  -- list.pop(float) raises TypeError
  else if 0 ≤ idx.num then .ok (xs.eraseIdx idx.num.toNat)
  else if idx.num + xs.length ≥ 0 then .ok (xs.eraseIdx (idx.num + xs.length).toNat)
  else .error .typeError  -- IndexError

/-- Apply one `duplicates_to_merge` instruction: pop the referenced
indices highest-first, then append the oracle-provided merged record. -/
def applyMerge (validated : Value) (merge : Value) : Except PyErr Value :=
  match merge with
  | .obj m =>
    let indices := PyDict.getD m "indices" (.arr [])
    let merged := PyDict.getN m "merged_entity"
    if merged.truthy ∧ indices.truthy then
      match indices with
      | .arr ixs => do
        -- `True`/`False` sort and pop as 1/0; `inf` sorts first and its
        -- `idx < len(validated)` guard is false, so it never pops;
        -- `-inf` sorts last and `pop(-inf)` then raises, so the whole
        -- parse fails either way. A NaN index leaves the sort order to
        -- Timsort's comparison pattern, not reproduced here; like the
        -- remaining non-numbers (on which `sorted` / `<` raises) it
        -- takes the dynamic-error path, which no verified claim reaches.
        let nums ← ixs.mapM fun v => match v with
          | .num q => Except.ok (some q)
          | .bool b => Except.ok (some (if b then 1 else 0))
          | .inf => Except.ok none
          | _ => .error PyErr.typeError
        match validated with
        | .arr vs => do
          let vs ← (sortNumsDesc (nums.filterMap id)).foldlM
            (fun acc idx =>
              if idx < (acc.length : ℚ) then popAt acc idx else .ok acc)
            vs
          .ok (.arr (vs ++ [merged]))
        | _ => .error .typeError  -- len() of a non-list raises
      | _ => .error .typeError  -- sorted() of a non-list raises
    else .ok validated
  | _ => .error .typeError  -- merge.get on a non-dict raises

/-- `_parse_validation_response`. `JSONDecodeError` (no JSON object found,
or an unparseable one) is caught inside and yields the passthrough;
dynamic-typing errors while applying oracle data propagate as `PyErr` to
the caller's `except`. -/
def parseValidationResponse (response : String) (original : List PyDict) :
    Except PyErr ValidationResult :=
  match findJsonSpan response with
  | none => .ok (passthroughValidation original)
  | some jtxt =>
    match Json.parse jtxt with
    | none => .ok (passthroughValidation original)
    | some (.obj data) => do
      let statusMap : List (String × ValidationStatus) :=
        [("valid", .valid), ("invalid", .invalid),
         ("needs_review", .needs_review)]
      let status ← match PyDict.getD data "status" (.str "valid") with
        | .str s => Except.ok ((statusMap.lookup s).getD .valid)
        -- a list or dict status is an unhashable `status_map.get` key
        | .arr _ => .error PyErr.typeError
        | .obj _ => .error PyErr.typeError
        -- every other value is hashable and absent from the map
        | _ => Except.ok ValidationStatus.valid
      let validated0 := PyDict.getD data "validated_entities"
        (.arr (original.map .obj))
      let dups := PyDict.getD data "duplicates_to_merge" (.arr [])
      let validated ← match dups with
        | .arr merges => merges.foldlM applyMerge validated0
        -- a string iterates into characters and a dict into its keys:
        -- empty ones run the loop zero times, any element raises in
        -- `merge.get`
        | .str s => if s.isEmpty then Except.ok validated0
                    else .error PyErr.typeError
        | .obj kvs => if kvs.isEmpty then Except.ok validated0
                      else .error PyErr.typeError
        | _ => .error PyErr.typeError  -- iterating a non-iterable raises
      .ok { status := status
            confidence := PyDict.getD data "confidence" (.num (8 / 10))
            entities := validated
            corrections := PyDict.getD data "corrections" (.arr [])
            reasoning := PyDict.getD data "reasoning" (.str "")
            graph_operations := PyDict.getD data "graph_operations" (.arr []) }
    | some _ =>
      -- unreachable: the extracted span starts with `{`, so a successful
      -- parse is an object
      .ok (passthroughValidation original)

/-- `validate_and_aggregate`: passthrough when disabled; otherwise call
the oracle and parse, falling back to passthrough on any exception. -/
def validateAndAggregate (enabled : Bool) (outcome : OracleOutcome)
    (entities : List PyDict) : ValidationResult :=
  if ¬enabled then passthroughValidation entities
  else
    match outcome with
    | .failure => passthroughValidation entities
    | .success body =>
      match parseValidationResponse body entities with
      | .ok r => r
      | .error _ => passthroughValidation entities

end HaikuAggregator

/-! ## Workers (`src/workers/*.py`)

Each worker's `extract` builds `system_prompt + "\n\n" + extraction_prompt`
and, with no generative backend attached, the default `_generate` echoes
that prompt back as the response before `parse_response` runs over it.
Wall-clock timing (`processing_time`) is not modelled. -/

/-- `WorkerType`. -/
inductive WorkerType where
  | date
  | person
  | org
  | amount
  | general
deriving DecidableEq, Repr

/-- The enum's string value (`WorkerType.DATE.value == "date"`, …). -/
def WorkerType.value : WorkerType → String
  | .date => "date"
  | .person => "person"
  | .org => "org"
  | .amount => "amount"
  | .general => "general"

/-- `ExtractionResult` (without the wall-clock `processing_time`). -/
structure ExtractionResult where
  worker_type : WorkerType
  entities : List PyDict
  confidence : ℚ
  raw_response : String
  metadata : PyDict
deriving DecidableEq

/-- Substring containment, Python's `needle in hay`. -/
def containsSub (needle hay : List Char) : Bool :=
  (List.range (hay.length + 1)).any fun i => needle.isPrefixOf (hay.drop i)

/-- The numeric content of `e.get("confidence", 0.5)` as summed by
`_calculate_confidence` (a non-numeric stored confidence would raise
`TypeError` in `sum`; unreachable for pipeline entities, modelled as the
0.5 default). -/
def confTerm (v : Value) : ℚ :=
  match v with
  | .num q => q
  | .bool b => if b then 1 else 0
  | _ => 1 / 2

/-- `BaseWorker._calculate_confidence`: 0.0 on no entities; else a base of
`min(count/10, 1) * 0.5`, damped by 0.7 on hedge words, averaged with the
mean entity confidence when any entity carries a truthy one, then shifted
by 0.5 and capped at 1. -/
def calcConfidence (entities : List PyDict) (response : String) : ℚ :=
  if entities.isEmpty then 0
  else
    let lower := (pyLower response).data
    let base0 := min ((entities.length : ℚ) / 10) 1 * (1 / 2)
    let base1 :=
      if containsSub "uncertain".data lower || containsSub "unclear".data lower
      then base0 * (7 / 10) else base0
    let base2 :=
      if entities.any fun e => (PyDict.getN e "confidence").truthy then
        (base1 +
          (entities.map fun e =>
            confTerm (PyDict.getD e "confidence" (.num (1 / 2)))).sum /
            entities.length) / 2
      else base1
    min (base2 + 1 / 2) 1

/-- The shared `BaseWorker.extract` (with the default echoing
`_generate`). -/
def baseExtract (wt : WorkerType) (systemPrompt : String)
    (extractionPrompt : String → String) (parse : String → List PyDict)
    (text : String) : ExtractionResult :=
  let prompt := extractionPrompt text
  let response := systemPrompt ++ "\n\n" ++ prompt
  let entities := parse response
  { worker_type := wt
    entities := entities
    confidence := calcConfidence entities response
    raw_response := response
    metadata := [("prompt_length", .num prompt.length),
                 ("response_length", .num response.length)] }

namespace PersonWorker

/-- `PersonWorker.get_system_prompt()`. -/
def systemPrompt : String :=
  "You are a specialized person/entity extraction AI. Your task is to identify and extract all references to people from text.\n\nExtract:\n- Full names (e.g., \"John Smith\", \"Dr. Jane Doe\")\n- Email addresses associated with people\n- Titles and roles (e.g., \"CEO\", \"Director of Sales\")\n- Relationships (e.g., \"John's manager\", \"the defendant\")\n- Aliases and nicknames\n\nOutput JSON array with: name, email, title, role, organization, context"

/-- `PersonWorker.get_extraction_prompt(text)`. -/
def extractionPrompt (text : String) : String :=
  "Extract all people and their information from this text:\n\nTEXT:\n" ++
    text ++
    "\n\nReturn a JSON array of objects with fields:\n- name: full name of the person\n- email: email address if found\n- title: professional title if mentioned\n- role: their role in the context\n- organization: associated organization if mentioned\n- relationships: list of relationships to other people\n- confidence: 0.0 to 1.0\n\nJSON:"

/-- Characters of the email local part (`[a-zA-Z0-9._%+-]`). -/
def isLocalChar (c : Char) : Bool :=
  c.isAlphanum || c = '.' || c = '_' || c = '%' || c = '+' || c = '-'

/-- Characters of the email domain run (`[a-zA-Z0-9.-]`). -/
def isDomChar (c : Char) : Bool :=
  c.isAlphanum || c = '.' || c = '-'

/-- ASCII letter (`[a-zA-Z]`). -/
def isAsciiLetter (c : Char) : Bool :=
  ('a' ≤ c ∧ c ≤ 'z') || ('A' ≤ c ∧ c ≤ 'Z')

/-- Try to match `EMAIL_PATTERN` at the start of `cs` (`prev` is the
character before it, for the leading `\b`). Returns the match length.
The domain is matched with the regex's backtracking: the latest `.`
inside the domain run that is followed by at least two letters and a
word boundary wins. -/
def emailMatchLen (prev : Option Char) (cs : List Char) : Option ℕ :=
  match cs.head? with
  | none => none
  | some c0 =>
    if ¬ isLocalChar c0 then none
    else
      let bOk : Bool := match prev with
        | none => isWordChar c0
        | some p => isWordChar p != isWordChar c0
      if !bOk then none
      else
        let localRun := cs.takeWhile isLocalChar
        match cs.drop localRun.length with
        | '@' :: rest2 =>
          let dom := rest2.takeWhile isDomChar
          if dom.isEmpty then none
          else
            let after := rest2.drop dom.length
            -- candidate '.' positions in the domain run, latest first
            let dots := ((List.range dom.length).filter fun i =>
              dom.getD i ' ' = '.' && 1 ≤ i).reverse
            (dots.filterMap fun k =>
              let letters := (dom.drop (k + 1)).takeWhile isAsciiLetter
              let next := if k + 1 + letters.length < dom.length
                then dom.getD (k + 1 + letters.length) ' ' |> some
                else after.head?
              let bEnd : Bool := match next with
                | none => true
                | some c => !isWordChar c
              if 2 ≤ letters.length && bEnd then
                some (localRun.length + 1 + k + 1 + letters.length)
              else none).head?
        | _ => none

/-- `re.findall(EMAIL_PATTERN, response)`: non-overlapping matches, left
to right. -/
def findEmails (s : String) : List String :=
  go s.data none [] s.data.length
where
  go (cs : List Char) (prev : Option Char) (acc : List String) :
      ℕ → List String
    | 0 => acc.reverse
    | fuel + 1 =>
      match cs with
      | [] => acc.reverse
      | c :: rest =>
        match emailMatchLen prev cs with
        | some n =>
          if 0 < n then
            go (cs.drop n) (cs.getD (n - 1) ' ' |> some)
              (⟨cs.take n⟩ :: acc) fuel
          else acc.reverse
        | none => go rest (some c) acc fuel

/-- `_extract_name_from_email`. -/
def extractNameFromEmail (email : String) : String :=
  let localPart : String := ⟨email.data.takeWhile (· ≠ '@')⟩
  let parts := splitOnPred (fun c => c = '.' || c = '_' || c = '-') localPart.data
  if 2 ≤ parts.length then
    " ".intercalate ((parts.take 2).map pyCapitalize)
  else pyCapitalize localPart

/-- `_extract_org_from_email`. -/
def extractOrgFromEmail (email : String) : String :=
  let domain : List Char := (email.data.dropWhile (· ≠ '@')).drop 1
  pyCapitalize ⟨domain.takeWhile (· ≠ '.')⟩

/-- `PersonWorker.parse_response`: the JSON-array scrape, then one
synthesized person per email address not already present. (A non-dict
JSON item would raise on the later `.get` in Python; such items are
dropped here, unreachable for the claims below.) -/
def parseResponse (response : String) : List PyDict :=
  let entities : List PyDict :=
    match findSpan '[' ']' response with
    | some txt =>
      match Json.parse txt with
      | some (.arr items) => items.filterMap fun v =>
          match v with
          | .obj kvs => some kvs
          | _ => none
      | _ => []
    | none => []
  (findEmails response).foldl
    (fun acc email =>
      if acc.any fun e => PyDict.getN e "email" = .str email then acc
      else acc ++
        [[("name", .str (extractNameFromEmail email)),
          ("email", .str email),
          ("title", .null),
          ("role", .null),
          ("organization", .str (extractOrgFromEmail email)),
          ("relationships", .arr []),
          ("confidence", .num (7 / 10))]])
    entities

/-- `PersonWorker().extract(text)` with the default echoing backend. -/
def extract (text : String) : ExtractionResult :=
  baseExtract .person systemPrompt extractionPrompt parseResponse text

end PersonWorker

namespace GeneralWorker

/-- `GeneralWorker.get_system_prompt()`. -/
def systemPrompt : String :=
  "You are a helpful AI assistant specialized in analyzing text and answering questions.\nProvide clear, accurate, and well-structured responses.\nWhen extracting information, be thorough but precise.\nIf uncertain, express your confidence level."

/-- `GeneralWorker.get_extraction_prompt(text)`. -/
def extractionPrompt (text : String) : String :=
  "Analyze and respond to the following:\n\n" ++ text

/-- `GeneralWorker.parse_response`: always one free-text entity wrapping
the raw response. -/
def parseResponse (response : String) : List PyDict :=
  [[("type", .str "general_response"),
    ("content", .str response),
    ("confidence", .num (8 / 10))]]

/-- `GeneralWorker().extract(text)` with the default echoing backend. -/
def extract (text : String) : ExtractionResult :=
  baseExtract .general systemPrompt extractionPrompt parseResponse text

end GeneralWorker

namespace AmountWorker

/-- `CURRENCY_SYMBOLS`, in insertion order. -/
def currencySymbols : List (String × String) :=
  [("$", "USD"), ("€", "EUR"), ("£", "GBP"), ("¥", "JPY"),
   ("₹", "INR"), ("₽", "RUB"), ("₿", "BTC"), ("CHF", "CHF")]

/-- `MULTIPLIERS`, keyed by the already-lower-cased multiplier word. -/
def multipliers : List (String × ℚ) :=
  [("thousand", 1000), ("k", 1000),
   ("million", 1000000), ("m", 1000000),
   ("billion", 1000000000), ("b", 1000000000)]

/-- Case-insensitive prefix test (the pattern is compiled with
`re.IGNORECASE`). -/
def ciPrefix (pre : List Char) (cs : List Char) : Bool :=
  (pre.map asciiLower).isPrefixOf (cs.map asciiLower)

/-- The multiplier alternation `(million|billion|thousand|M|B|K)?`, tried
in order, case-insensitively, with no word boundary. Returns the matched
source text. -/
def matchMultiplier (cs : List Char) : Option (List Char) :=
  (["million", "billion", "thousand", "M", "B", "K"].filterMap fun w =>
    if ciPrefix w.data cs then some (cs.take w.length) else none).head?

/-- One amount match at the start of `cs`:
`SYMBOL\s*(\d{1,3}(?:,\d{3})*(?:\.\d{1,2})?)\s*(million|billion|thousand|M|B|K)?`.
Returns (total length, number text, multiplier text). -/
def matchAmountAt (sym : List Char) (cs : List Char) : Option (ℕ × List Char × Option (List Char)) :=
  if ¬ ciPrefix sym cs then none
  else
    let rest0 := cs.drop sym.length
    let sp0 := rest0.takeWhile (fun c => c.isWhitespace)
    let rest1 := rest0.drop sp0.length
    let d0 := rest1.takeWhile (fun c => c.isDigit)
    if d0.isEmpty then none
    else
      let lead := d0.take 3
      let afterLead := rest1.drop lead.length
      -- (?:,\d{3})*: a comma followed by exactly three digits, repeated
      let groups := countGroups afterLead 0 afterLead.length
      let afterGroups := afterLead.drop (groups * 4)
      -- (?:\.\d{1,2})?
      let fracLen := match afterGroups with
        | '.' :: c :: rest =>
          if c.isDigit then
            if rest.head?.elim false (fun c2 => c2.isDigit) then 3 else 2
          else 0
        | _ => 0
      let afterFrac := afterGroups.drop fracLen
      let sp1 := afterFrac.takeWhile (fun c => c.isWhitespace)
      let afterSp1 := afterFrac.drop sp1.length
      let numLen := lead.length + groups * 4 + fracLen
      match matchMultiplier afterSp1 with
      | some m =>
        some (sym.length + sp0.length + numLen + sp1.length + m.length,
          (rest1.take numLen), some m)
      | none =>
        some (sym.length + sp0.length + numLen + sp1.length,
          (rest1.take numLen), none)
where
  countGroups (cs : List Char) (acc : ℕ) : ℕ → ℕ
    | 0 => acc
    | fuel + 1 =>
      match cs with
      | ',' :: a :: b :: c :: rest =>
        if a.isDigit && b.isDigit && c.isDigit then
          countGroups rest (acc + 1) fuel
        else acc
      | _ => acc

/-- All non-overlapping matches of the symbol pattern, left to right
(`re.finditer`). -/
def findAmountMatches (sym : String) (s : String) :
    List (List Char × List Char × Option (List Char)) :=
  go s.data [] s.data.length
where
  go (cs : List Char) (acc : List (List Char × List Char × Option (List Char))) :
      ℕ → List (List Char × List Char × Option (List Char))
    | 0 => acc.reverse
    | fuel + 1 =>
      match cs with
      | [] => acc.reverse
      | _ :: rest =>
        match matchAmountAt sym.data cs with
        | some (n, numTxt, mult) =>
          if 0 < n then
            go (cs.drop n) ((cs.take n, numTxt, mult) :: acc) fuel
          else acc.reverse
        | none => go rest acc fuel

/-- `_parse_number`: `Decimal(num_str.replace(',', ''))`, 0 on a parse
failure. -/
def parseNumber (numStr : String) : ℚ :=
  let cleaned := numStr.data.filter (· ≠ ',')
  match Json.readNumber cleaned with
  | some (q, []) => q
  | _ => 0

/-- `_normalize_amount(item)`: the `amount` field (string amounts parsed
as decimals), scaled by the multiplier word if one is present. A
non-numeric non-string amount would raise on `*` in Python; it is
modelled as 0. -/
def normalizeAmount (item : PyDict) : ℚ :=
  let amount : ℚ := match PyDict.getD item "amount" (.num 0) with
    | .num q => q
    | .str s => parseNumber s
    | .bool b => if b then 1 else 0
    | _ => 0
  let multV := PyDict.getD item "multiplier" (.str "")
  if multV.truthy then
    let mult := (multipliers.lookup (pyLower multV.asStr)).getD 1
    amount * mult
  else amount

/-- `AmountWorker.parse_response`: the JSON-array scrape (backfilling
`normalized_value` from `amount`/`multiplier` when missing), then the
per-symbol regex sweep, deduplicated by `amount_string`. (Non-dict JSON
items would raise on the later subscript in Python; dropped here.) -/
def parseResponse (response : String) : List PyDict :=
  let jsonEnts : List PyDict :=
    match findSpan '[' ']' response with
    | some txt =>
      match Json.parse txt with
      | some (.arr items) => items.filterMap fun v =>
          match v with
          | .obj kvs =>
            some (if (kvs.lookup "normalized_value").isNone ∧
                      ¬ (kvs.lookup "amount").isNone
                  then PyDict.set kvs "normalized_value"
                    (.num (normalizeAmount kvs))
                  else kvs)
          | _ => none
      | _ => []
    | none => []
  currencySymbols.foldl
    (fun acc p =>
      (findAmountMatches p.1 response).foldl
        (fun acc m =>
          let amountStr : String := ⟨m.1⟩
          if acc.any fun e => PyDict.getN e "amount_string" = .str amountStr
          then acc
          else
            let amount := parseNumber ⟨m.2.1⟩
            let multiplier := m.2.2
            let normalized := match multiplier with
              | some mtxt =>
                amount * ((multipliers.lookup (pyLower ⟨mtxt⟩)).getD 1)
              | none => amount
            acc ++
              [[("amount_string", .str amountStr),
                ("amount", .num amount),
                ("currency", .str p.2),
                ("multiplier",
                  match multiplier with
                  | some mtxt => .str ⟨mtxt⟩
                  | none => .null),
                ("normalized_value", .num normalized),
                ("amount_type", .str "currency"),
                ("context", .str ""),
                ("confidence", .num (9 / 10))]])
        acc)
    jsonEnts

end AmountWorker

/-! ## QueryRouter (`src/router/query_router.py`)

`route` is modelled from the point where the worker set has been
resolved: the concurrent fan-out (`asyncio.gather(...,
return_exceptions=True)`), the exclusion of failed workers, and
`_combine_entities`. A worker's behaviour on the query is a function to
`Except` (an exception or an `ExtractionResult`); after `initialize` the
router holds a worker for all five types, so the `worker_type in
self.workers` membership test always passes. -/

/-- How each worker responds to the query: `.error` models a raised
exception in the gathered task. -/
abbrev WorkerBehavior := WorkerType → Except String ExtractionResult

/-- The result dict of `route`, post-selection. -/
structure RoutingResult where
  results : List (WorkerType × ExtractionResult)
  combined_entities : List PyDict
  workers_used : List String
deriving DecidableEq

namespace QueryRouter

/-- Python dict assignment for the `results` dict: overwrite in place or
append. -/
def upsert : List (WorkerType × ExtractionResult) → WorkerType →
    ExtractionResult → List (WorkerType × ExtractionResult)
  | [], t, r => [(t, r)]
  | (t', r') :: rest, t, r =>
    if t' = t then (t, r) :: rest else (t', r') :: upsert rest t r

/-- One step of building `results`: store a success, skip a failure. -/
def gatherStep (behav : WorkerBehavior)
    (acc : List (WorkerType × ExtractionResult)) (t : WorkerType) :
    List (WorkerType × ExtractionResult) :=
  match behav t with
  | .ok r => upsert acc t r
  | .error _ => acc

/-- Building `results` from `zip(worker_types, results_list)`: failures
are logged and skipped, successes stored. -/
def gatherResults (behav : WorkerBehavior) (workerTypes : List WorkerType) :
    List (WorkerType × ExtractionResult) :=
  workerTypes.foldl (gatherStep behav) []

/-- `_combine_entities`: annotate every entity of every surviving result
with `_source_worker` and `_extraction_confidence`, flattening in result
order. -/
def combineEntities (results : List (WorkerType × ExtractionResult)) :
    List PyDict :=
  results.flatMap fun p =>
    p.2.entities.map fun e =>
      PyDict.set (PyDict.set e "_source_worker" (.str p.1.value))
        "_extraction_confidence" (.num p.2.confidence)

/-- `route`, from the resolved worker-type list onward. -/
def routeWorkers (behav : WorkerBehavior) (workerTypes : List WorkerType) :
    RoutingResult :=
  let results := gatherResults behav workerTypes
  { results := results
    combined_entities := combineEntities results
    workers_used := workerTypes.map (·.value) }

end QueryRouter

/-! ## DateWorker `_normalize_date` (`src/workers/date_worker.py`)

A model of CPython `datetime.strptime` for the nine formats of
`_normalize_date`, and of `strftime('%Y-%m-%d')`. `strptime` compiles
each directive to a regex fragment (`%m` ⇒ `1[0-2]|0[1-9]|[1-9]`, `%d` ⇒
`3[01]|[12]\d|0[1-9]|[1-9]`, `%Y` ⇒ four digits, `%y` ⇒ two digits with
the 69 pivot, `%B`/`%b` ⇒ the month-name alternation, case-insensitive;
whitespace in the format ⇒ `\s+`), matches anchored at the start,
requires the whole string to be consumed, and validates the day against
the month via the `datetime` constructor. The regex's
alternative-ordered backtracking is reproduced by trying each
alternative in order against the continuation. `strftime('%Y-%m-%d')`
renders `%m`/`%d` zero-padded to two digits; `%Y` on CPython/glibc is
the plain decimal year (no zero padding below 1000, checked against the
interpreter), which is what breaks the round-trip for years below
1000. -/

namespace DateWorker

/-- A parsed calendar date. -/
structure PyDate where
  year : ℕ
  month : ℕ
  day : ℕ
deriving DecidableEq, Repr

/-- Gregorian leap year. -/
def isLeap (y : ℕ) : Bool :=
  y % 4 = 0 && (y % 100 ≠ 0 || y % 400 = 0)

/-- Days in a month. -/
def daysInMonth (y m : ℕ) : ℕ :=
  if m = 2 then (if isLeap y then 29 else 28)
  else if m = 4 ∨ m = 6 ∨ m = 9 ∨ m = 11 then 30
  else 31

/-- The `datetime(year, month, day)` constructor's validation
(`MINYEAR = 1`, `MAXYEAR = 9999`). -/
def validDate (y m d : ℕ) : Bool :=
  1 ≤ y && y ≤ 9999 && 1 ≤ m && m ≤ 12 && 1 ≤ d && d ≤ daysInMonth y m

/-- Numeric value of a digit character. -/
def digitVal (c : Char) : ℕ :=
  c.toNat - '0'.toNat

/-- `%m` (`1[0-2]|0[1-9]|[1-9]`): possible (value, rest) readings in
regex preference order. -/
def readMonth2 : List Char → List (ℕ × List Char)
  | c1 :: c2 :: rest =>
    (if c1 = '1' ∧ '0' ≤ c2 ∧ c2 ≤ '2' then [(10 + digitVal c2, rest)] else []) ++
    (if c1 = '0' ∧ '1' ≤ c2 ∧ c2 ≤ '9' then [(digitVal c2, rest)] else []) ++
    (if '1' ≤ c1 ∧ c1 ≤ '9' then [(digitVal c1, c2 :: rest)] else [])
  | [c1] => if '1' ≤ c1 ∧ c1 ≤ '9' then [(digitVal c1, [])] else []
  | [] => []

/-- `%d` (`3[01]|[12]\d|0[1-9]|[1-9]`). -/
def readDay2 : List Char → List (ℕ × List Char)
  | c1 :: c2 :: rest =>
    (if c1 = '3' ∧ (c2 = '0' ∨ c2 = '1') then [(30 + digitVal c2, rest)] else []) ++
    (if (c1 = '1' ∨ c1 = '2') ∧ c2.isDigit then
      [(digitVal c1 * 10 + digitVal c2, rest)] else []) ++
    (if c1 = '0' ∧ '1' ≤ c2 ∧ c2 ≤ '9' then [(digitVal c2, rest)] else []) ++
    (if '1' ≤ c1 ∧ c1 ≤ '9' then [(digitVal c1, c2 :: rest)] else [])
  | [c1] => if '1' ≤ c1 ∧ c1 ≤ '9' then [(digitVal c1, [])] else []
  | [] => []

/-- `%Y` (exactly four digits). -/
def readYear4 : List Char → List (ℕ × List Char)
  | a :: b :: c :: d :: rest =>
    if a.isDigit ∧ b.isDigit ∧ c.isDigit ∧ d.isDigit then
      [(((digitVal a * 10 + digitVal b) * 10 + digitVal c) * 10 + digitVal d,
        rest)]
    else []
  | _ => []

/-- `%y` (two digits; 00–68 ⇒ 2000s, 69–99 ⇒ 1900s). -/
def readYear2 : List Char → List (ℕ × List Char)
  | a :: b :: rest =>
    if a.isDigit ∧ b.isDigit then
      let v := digitVal a * 10 + digitVal b
      [(if v ≤ 68 then 2000 + v else 1900 + v, rest)]
    else []
  | _ => []

/-- Full month names (matched case-insensitively). -/
def monthNames : List (String × ℕ) :=
  [("january", 1), ("february", 2), ("march", 3), ("april", 4),
   ("may", 5), ("june", 6), ("july", 7), ("august", 8),
   ("september", 9), ("october", 10), ("november", 11), ("december", 12)]

/-- Abbreviated month names. -/
def monthAbbrs : List (String × ℕ) :=
  [("jan", 1), ("feb", 2), ("mar", 3), ("apr", 4), ("may", 5), ("jun", 6),
   ("jul", 7), ("aug", 8), ("sep", 9), ("oct", 10), ("nov", 11), ("dec", 12)]

/-- `%B`/`%b`: month-name alternation, case-insensitive (no two names
are prefixes of one another, so at most one alternative applies). -/
def readMonthName (names : List (String × ℕ)) (cs : List Char) :
    List (ℕ × List Char) :=
  names.filterMap fun p =>
    if (p.1.data).isPrefixOf (cs.map asciiLower) then
      some (p.2, cs.drop p.1.length)
    else none

/-- A `strptime` format directive. -/
inductive FTok where
  | m2
  | d2
  | y4
  | y2
  | bFull
  | bAbbr
  | lit (c : Char)
  | ws
deriving DecidableEq, Repr

/-- Partially bound date fields (strptime defaults: 1900-01-01). -/
structure DParts where
  y : ℕ := 1900
  m : ℕ := 1
  d : ℕ := 1
deriving DecidableEq, Repr

/-- First successful continuation over an alternative list (the regex
engine's ordered backtracking). -/
def firstSome {α : Type} (alts : List α) (f : α → Option DParts) :
    Option DParts :=
  alts.findSome? f

/-- Match a token list against the input, requiring full consumption
(`strptime` raises on unconverted data). -/
def parseToks : List FTok → List Char → DParts → Option DParts
  | [], cs, p => if cs.isEmpty then some p else none
  | .lit c :: toks, cs, p =>
    match cs with
    | c' :: rest => if c' = c then parseToks toks rest p else none
    | [] => none
  | .ws :: toks, cs, p =>
    let sp := cs.takeWhile Char.isWhitespace
    if sp.isEmpty then none else parseToks toks (cs.drop sp.length) p
  | .m2 :: toks, cs, p =>
    firstSome (readMonth2 cs) fun a => parseToks toks a.2 { p with m := a.1 }
  | .d2 :: toks, cs, p =>
    firstSome (readDay2 cs) fun a => parseToks toks a.2 { p with d := a.1 }
  | .y4 :: toks, cs, p =>
    firstSome (readYear4 cs) fun a => parseToks toks a.2 { p with y := a.1 }
  | .y2 :: toks, cs, p =>
    firstSome (readYear2 cs) fun a => parseToks toks a.2 { p with y := a.1 }
  | .bFull :: toks, cs, p =>
    firstSome (readMonthName monthNames cs) fun a =>
      parseToks toks a.2 { p with m := a.1 }
  | .bAbbr :: toks, cs, p =>
    firstSome (readMonthName monthAbbrs cs) fun a =>
      parseToks toks a.2 { p with m := a.1 }

/-- `datetime.strptime(cs, fmt)` as an optional validated date. -/
def parseFmt (toks : List FTok) (cs : List Char) : Option PyDate :=
  match parseToks toks cs {} with
  | some p => if validDate p.y p.m p.d then some ⟨p.y, p.m, p.d⟩ else none
  | none => none

/-- The ordered format list of `_normalize_date`:
`%m/%d/%Y`, `%m-%d-%Y`, `%Y-%m-%d`, `%Y/%m/%d`, `%B %d, %Y`, `%d %B %Y`,
`%b %d, %Y`, `%m/%d/%y`, `%m-%d-%y`. -/
def fmtTokens : List (List FTok) :=
  [[.m2, .lit '/', .d2, .lit '/', .y4],
   [.m2, .lit '-', .d2, .lit '-', .y4],
   [.y4, .lit '-', .m2, .lit '-', .d2],
   [.y4, .lit '/', .m2, .lit '/', .d2],
   [.bFull, .ws, .d2, .lit ',', .ws, .y4],
   [.d2, .ws, .bFull, .ws, .y4],
   [.bAbbr, .ws, .d2, .lit ',', .ws, .y4],
   [.m2, .lit '/', .d2, .lit '/', .y2],
   [.m2, .lit '-', .d2, .lit '-', .y2]]

/-- `date_str.strip()`. -/
def pyStrip (cs : List Char) : List Char :=
  ((cs.dropWhile Char.isWhitespace).reverse.dropWhile Char.isWhitespace).reverse

/-- The first format that parses the stripped input. -/
def parseDateAny (s : String) : Option PyDate :=
  fmtTokens.findSome? fun toks => parseFmt toks (pyStrip s.data)

/-- Two-digit zero-padded rendering (`%m`, `%d`). -/
def pad2 (n : ℕ) : List Char :=
  [Char.ofNat ('0'.toNat + n / 10 % 10), Char.ofNat ('0'.toNat + n % 10)]

/-- Four-digit zero-padded rendering (`%Y`; `datetime` years fit). -/
def pad4 (n : ℕ) : List Char :=
  [Char.ofNat ('0'.toNat + n / 1000 % 10), Char.ofNat ('0'.toNat + n / 100 % 10),
   Char.ofNat ('0'.toNat + n / 10 % 10), Char.ofNat ('0'.toNat + n % 10)]

/-- Decimal digits of `n`, most significant first, no padding. -/
def natDigits (n : ℕ) : List Char :=
  go (n + 1) n
where
  go : ℕ → ℕ → List Char
    | 0, _ => []
    | fuel + 1, n =>
      if n < 10 then [Char.ofNat ('0'.toNat + n)]
      else go fuel (n / 10) ++ [Char.ofNat ('0'.toNat + n % 10)]

/-- `%Y` as rendered by glibc `strftime`: the plain decimal year. For
years ≥ 1000 this coincides with four zero-padded digits. -/
def yearStr (y : ℕ) : List Char :=
  if 1000 ≤ y then pad4 y else natDigits y

/-- `dt.strftime('%Y-%m-%d')`. -/
def isoFormat (d : PyDate) : String :=
  ⟨yearStr d.year ++ '-' :: (pad2 d.month ++ '-' :: pad2 d.day)⟩

/-- `_normalize_date`: the first successful format's parse, re-rendered
as ISO; `None` when no format matches. -/
def normalizeDate (s : String) : Option String :=
  (parseDateAny s).map isoFormat

end DateWorker

/-! ## Claim theorems -/

set_option maxRecDepth 40000

/-- C1 counterexample: with the default echoing backend, the General
handler's `extract("")` parses its own prompt text and returns one
entity with confidence 367/400 (= 0.9175), so the entity list is not
empty and the aggregate confidence is not 0.0 as C1 claims for every
handler. -/
theorem c1_general_extract_empty_counterexample :
    (GeneralWorker.extract "").entities.length = 1 ∧
    (GeneralWorker.extract "").confidence = 367 / 400 ∧
    ¬ ((GeneralWorker.extract "").entities = [] ∧
       (GeneralWorker.extract "").confidence = 0) := by
  refine ⟨by rfl, by rfl, ?_⟩
  rintro ⟨-, hc⟩
  have : (367 / 400 : ℚ) = 0 := by
    have h2 : (GeneralWorker.extract "").confidence = 367 / 400 := by rfl
    exact h2 ▸ hc
  exact absurd this (by decide)

/-- C1 (amended): `extract` on the empty string is safe to invoke, and
the confidence formula yields 0.0 whenever the parsed entity list is
empty: `_calculate_confidence` of an empty list is 0.0 for every
response text, and the Person handler — whose own prompt text contains
no email pattern — returns an empty entity list with confidence 0.0 on
the empty string. -/
theorem c1_empty_text_confidence :
    (∀ response : String, calcConfidence [] response = 0) ∧
    (PersonWorker.extract "").entities = [] ∧
    (PersonWorker.extract "").confidence = 0 := by
  refine ⟨fun response => rfl, by rfl, by rfl⟩

/-- C10: for every pair of entities whose `normalized_value` is 0 or
missing on either side, `_amount_similarity` is 0 with reason
`no_match` — zero-valued amounts are never deduplicated, even when both
sides are equal (both 0). -/
theorem c10_zero_amount_no_match (a b : PyDict)
    (h : (a.lookup "normalized_value" = none ∨
          a.lookup "normalized_value" = some (.num 0)) ∨
         (b.lookup "normalized_value" = none ∨
          b.lookup "normalized_value" = some (.num 0))) :
    EntityMerger.amountSimilarity a b = (0, "no_match") := by
  rcases h with h | h <;> rcases h with h | h <;>
    simp [EntityMerger.amountSimilarity, PyDict.getD, h, Value.truthy]

/-- Witness for C10 at a concrete input: one amount entity with
`normalized_value` 0 and one with the field missing. -/
theorem c10_zero_amount_no_match_witness :
    ((([("normalized_value", Value.num 0)] : PyDict).lookup "normalized_value" = none ∨
      ([("normalized_value", Value.num 0)] : PyDict).lookup "normalized_value" = some (.num 0)) ∨
     (([] : PyDict).lookup "normalized_value" = none ∨
      ([] : PyDict).lookup "normalized_value" = some (.num 0))) ∧
    EntityMerger.amountSimilarity [("normalized_value", Value.num 0)] [] = (0, "no_match") :=
  ⟨Or.inl (Or.inr (by decide)),
   c10_zero_amount_no_match [("normalized_value", Value.num 0)] []
     (Or.inl (Or.inr (by decide)))⟩

/-- C4: `validate_and_aggregate` never propagates a remote failure — if
the oracle is disabled, the remote call fails (transport error, timeout,
or non-200 status), or the response body contains no parseable top-level
JSON object, the result is exactly the deterministic passthrough over
the unchanged input entities. -/
theorem c4_failure_falls_back_to_passthrough (enabled : Bool)
    (outcome : OracleOutcome) (entities : List PyDict)
    (h : enabled = false ∨ outcome = .failure ∨
         ∃ body, outcome = .success body ∧
           (HaikuAggregator.findJsonSpan body).bind Json.parse = none) :
    HaikuAggregator.validateAndAggregate enabled outcome entities =
      HaikuAggregator.passthroughValidation entities := by
  rcases h with h | h | ⟨body, hb, hparse⟩
  · subst h
    simp [HaikuAggregator.validateAndAggregate]
  · subst h
    cases enabled <;> simp [HaikuAggregator.validateAndAggregate]
  · subst hb
    cases enabled with
    | false => simp [HaikuAggregator.validateAndAggregate]
    | true =>
      cases hspan : HaikuAggregator.findJsonSpan body with
      | none =>
        simp [HaikuAggregator.validateAndAggregate,
          HaikuAggregator.parseValidationResponse, hspan]
      | some jtxt =>
        rw [hspan] at hparse
        have hp : Json.parse jtxt = none := by
          simpa using hparse
        simp [HaikuAggregator.validateAndAggregate,
          HaikuAggregator.parseValidationResponse, hspan, hp]

/-- Witness for C4: disabled oracle on a concrete entity list. -/
theorem c4_failure_falls_back_to_passthrough_witness :
    ((false = false ∨ (OracleOutcome.failure = .failure ∨
        ∃ body, OracleOutcome.failure = .success body ∧
          (HaikuAggregator.findJsonSpan body).bind Json.parse = none))) ∧
    HaikuAggregator.validateAndAggregate false .failure
        [[("a", Value.num 1)]] =
      HaikuAggregator.passthroughValidation [[("a", Value.num 1)]] :=
  ⟨Or.inl rfl,
   c4_failure_falls_back_to_passthrough false .failure [[("a", Value.num 1)]]
     (Or.inl rfl)⟩

/-- The passthrough label computation agrees with the fixed
category→label case split of the specification. -/
theorem labelMap_cases (w : Value) :
    (match w with
     | .str s => (HaikuAggregator.labelMap.lookup s).getD "Entity"
     | _ => "Entity") =
    (if w = .str "date" then "Date"
     else if w = .str "person" then "Person"
     else if w = .str "org" then "Organization"
     else if w = .str "amount" then "Amount"
     else "Entity") := by
  cases w with
  | str s =>
    by_cases h1 : s = "date"
    · subst h1; decide
    · by_cases h2 : s = "person"
      · subst h2; decide
      · by_cases h3 : s = "org"
        · subst h3; decide
        · by_cases h4 : s = "amount"
          · subst h4; decide
          · have e1 : (s == "date") = false := by simpa using h1
            have e2 : (s == "person") = false := by simpa using h2
            have e3 : (s == "org") = false := by simpa using h3
            have e4 : (s == "amount") = false := by simpa using h4
            simp [HaikuAggregator.labelMap, List.lookup, e1, e2, e3, e4,
              h1, h2, h3, h4]
  | null => simp
  | bool b => simp
  | num q => simp
  | arr xs => simp
  | obj kvs => simp
  | nan => simp
  | inf => simp
  | ninf => simp

/-- C5: with validation disabled, `validate_and_aggregate` is the pure
passthrough: status `valid`, confidence exactly 0.7, empty corrections,
the input entity list unchanged, and exactly one `CREATE_NODE` graph
operation per input entity, labelled by the fixed map (date→Date,
person→Person, org→Organization, amount→Amount, anything else→Entity)
over the `_source_worker` tag, whose properties are the entity's
attributes with every underscore-prefixed key removed. -/
theorem c5_disabled_passthrough_shape (outcome : OracleOutcome)
    (entities : List PyDict) :
    (HaikuAggregator.validateAndAggregate false outcome entities).status =
        .valid ∧
    (HaikuAggregator.validateAndAggregate false outcome entities).confidence =
        .num (7 / 10) ∧
    (HaikuAggregator.validateAndAggregate false outcome entities).corrections =
        .arr [] ∧
    (HaikuAggregator.validateAndAggregate false outcome entities).entities =
        .arr (entities.map .obj) ∧
    (HaikuAggregator.validateAndAggregate false outcome entities).graph_operations =
        .arr (entities.map fun e =>
          .obj [("operation", .str "CREATE_NODE"),
                ("label", .str (
                  let w := PyDict.getD e "_source_worker" (.str "general")
                  if w = .str "date" then "Date"
                  else if w = .str "person" then "Person"
                  else if w = .str "org" then "Organization"
                  else if w = .str "amount" then "Amount"
                  else "Entity")),
                ("properties",
                  .obj (e.filter fun kv =>
                    ¬ HaikuAggregator.startsUnderscore kv.1))]) := by
  have hd : HaikuAggregator.validateAndAggregate false outcome entities =
      HaikuAggregator.passthroughValidation entities := by
    simp [HaikuAggregator.validateAndAggregate]
  rw [hd]
  refine ⟨rfl, rfl, rfl, rfl, ?_⟩
  simp only [HaikuAggregator.passthroughValidation]
  congr 1
  apply List.map_congr_left
  intro e _
  rw [labelMap_cases]

/-- C2: `merge_entities` consumes each original index at most once (it
appears in at most one chosen merge, and every chosen merge's output
record carries exactly its two indices in `_merged_from` and is in the
output), and never drops an index: every index is either covered by a
chosen merge's provenance or its entity passes through unchanged into
the output. -/
theorem c2_merge_partitions_indices (th : ℚ) (entities : List PyDict)
    (i : ℕ) (hi : i < entities.length) :
    (EntityMerger.chosenCandidates th entities).countP
        (EntityMerger.touches i) ≤ 1 ∧
    (∀ c ∈ EntityMerger.chosenCandidates th entities,
        (EntityMerger.mkMergedRecord entities c).lookup "_merged_from" =
          some (.arr [.num c.index_a, .num c.index_b]) ∧
        EntityMerger.mkMergedRecord entities c ∈
          EntityMerger.mergeEntities th entities) ∧
    ((∃ c ∈ EntityMerger.chosenCandidates th entities,
        EntityMerger.touches i c = true) ∨
      entities.getD i [] ∈ EntityMerger.mergeEntities th entities) := by
  have hne : entities.isEmpty = false := by
    cases entities with
    | nil => simp at hi
    | cons a t => rfl
  have hunfold : EntityMerger.mergeEntities th entities =
      (EntityMerger.chosenCandidates th entities).map
          (EntityMerger.mkMergedRecord entities) ++
        (List.range entities.length).filterMap fun j =>
          if j ∈ EntityMerger.mergedIndices
              (EntityMerger.chosenCandidates th entities) then none
          else some (entities.getD j []) := by
    simp [EntityMerger.mergeEntities, hne]
  refine ⟨EntityMerger.selectGo_countP_le_one, ?_, ?_⟩
  · intro c hc
    constructor
    · simp only [EntityMerger.mkMergedRecord]
      rw [PyDict.lookup_set_ne _ _ _ _ (by decide),
        PyDict.lookup_set_self]
    · rw [hunfold]
      exact List.mem_append_left _ (List.mem_map_of_mem _ hc)
  · by_cases hmem : i ∈ EntityMerger.mergedIndices
        (EntityMerger.chosenCandidates th entities)
    · exact Or.inl (EntityMerger.mem_mergedIndices.mp hmem)
    · refine Or.inr ?_
      rw [hunfold]
      refine List.mem_append_right _ ?_
      refine List.mem_filterMap.mpr ⟨i, List.mem_range.mpr hi, ?_⟩
      simp [hmem]

/-- C3: two entities with different `_source_worker` tags have computed
merge similarity exactly 0 (`different_type`), and at any positive
threshold, no pair of indices holding such entities is ever proposed by
`find_duplicates` or selected for merging, in either orientation. -/
theorem c3_cross_category_never_merged (th : ℚ) (entities : List PyDict)
    (i j : ℕ)
    (hw : PyDict.getD (entities.getD i []) "_source_worker" (.str "") ≠
          PyDict.getD (entities.getD j []) "_source_worker" (.str "")) :
    (EntityMerger.calcSimilarity (entities.getD i [])
        (entities.getD j [])).1 = 0 ∧
    (0 < th →
      (∀ c ∈ EntityMerger.findDuplicates th entities,
          ¬ ((c.index_a = i ∧ c.index_b = j) ∨
             (c.index_a = j ∧ c.index_b = i))) ∧
      (∀ c ∈ EntityMerger.chosenCandidates th entities,
          ¬ ((c.index_a = i ∧ c.index_b = j) ∨
             (c.index_a = j ∧ c.index_b = i)))) := by
  have hzij : (EntityMerger.calcSimilarity (entities.getD i [])
      (entities.getD j [])).1 = 0 := by
    simp only [EntityMerger.calcSimilarity]
    rw [if_pos hw]
  have hzji : (EntityMerger.calcSimilarity (entities.getD j [])
      (entities.getD i [])).1 = 0 := by
    simp only [EntityMerger.calcSimilarity]
    rw [if_pos (Ne.symm hw)]
  refine ⟨hzij, fun hth => ⟨?_, ?_⟩⟩
  · intro c hc hij
    obtain ⟨hle, hsim⟩ := EntityMerger.mem_findDuplicates hc
    rcases hij with ⟨ha, hb⟩ | ⟨ha, hb⟩
    · rw [ha, hb, hzij] at hsim
      rw [hsim] at hle
      exact absurd hth (not_lt.mpr hle)
    · rw [ha, hb, hzji] at hsim
      rw [hsim] at hle
      exact absurd hth (not_lt.mpr hle)
  · intro c hc
    have : c ∈ EntityMerger.findDuplicates th entities :=
      EntityMerger.mem_sortDesc.mp (EntityMerger.selectGo_subset hc)
    intro hij
    obtain ⟨hle, hsim⟩ := EntityMerger.mem_findDuplicates this
    rcases hij with ⟨ha, hb⟩ | ⟨ha, hb⟩
    · rw [ha, hb, hzij] at hsim
      rw [hsim] at hle
      exact absurd hth (not_lt.mpr hle)
    · rw [ha, hb, hzji] at hsim
      rw [hsim] at hle
      exact absurd hth (not_lt.mpr hle)

/-- A small concrete entity list: two equal amounts and one date. -/
def witnessEntities : List PyDict :=
  [[("_source_worker", .str "amount"), ("normalized_value", .num 2000000)],
   [("_source_worker", .str "amount"), ("normalized_value", .num 2000000)],
   [("_source_worker", .str "date"), ("normalized_date", .str "2024-03-15")]]

/-- Witness for C2 at index 0 of the concrete list. -/
theorem c2_merge_partitions_indices_witness :
    0 < witnessEntities.length ∧
    ((EntityMerger.chosenCandidates (85 / 100) witnessEntities).countP
        (EntityMerger.touches 0) ≤ 1 ∧
     (∀ c ∈ EntityMerger.chosenCandidates (85 / 100) witnessEntities,
        (EntityMerger.mkMergedRecord witnessEntities c).lookup "_merged_from" =
          some (.arr [.num c.index_a, .num c.index_b]) ∧
        EntityMerger.mkMergedRecord witnessEntities c ∈
          EntityMerger.mergeEntities (85 / 100) witnessEntities) ∧
     ((∃ c ∈ EntityMerger.chosenCandidates (85 / 100) witnessEntities,
        EntityMerger.touches 0 c = true) ∨
      witnessEntities.getD 0 [] ∈
        EntityMerger.mergeEntities (85 / 100) witnessEntities)) :=
  ⟨by decide, c2_merge_partitions_indices (85 / 100) witnessEntities 0 (by decide)⟩

/-- Witness for C3 on the amount/date pair of the concrete list. -/
theorem c3_cross_category_never_merged_witness :
    (PyDict.getD (witnessEntities.getD 0 []) "_source_worker" (.str "") ≠
      PyDict.getD (witnessEntities.getD 2 []) "_source_worker" (.str "")) ∧
    ((EntityMerger.calcSimilarity (witnessEntities.getD 0 [])
        (witnessEntities.getD 2 [])).1 = 0 ∧
     (0 < (85 / 100 : ℚ) →
      (∀ c ∈ EntityMerger.findDuplicates (85 / 100) witnessEntities,
          ¬ ((c.index_a = 0 ∧ c.index_b = 2) ∨
             (c.index_a = 2 ∧ c.index_b = 0))) ∧
      (∀ c ∈ EntityMerger.chosenCandidates (85 / 100) witnessEntities,
          ¬ ((c.index_a = 0 ∧ c.index_b = 2) ∨
             (c.index_a = 2 ∧ c.index_b = 0))))) :=
  ⟨by decide,
   c3_cross_category_never_merged (85 / 100) witnessEntities 0 2 (by decide)⟩

/-- Lookup in an association list built over a key list. -/
theorem lookup_keyMap {ks : List String} {f : String → Value} {k : String}
    (h : k ∈ ks) :
    (List.lookup k (ks.map fun k => (k, f k))) = some (f k) := by
  induction ks with
  | nil => simp at h
  | cons a t ih =>
    by_cases hak : a = k
    · subst hak
      simp [List.lookup]
    · have hne : (k == a) = false := by
        simpa using fun hc => hak hc.symm
      rcases List.mem_cons.mp h with h' | h'
      · exact absurd h'.symm hak
      · simp [List.lookup, hne, ih h']

/-- A successful lookup means the key occurs in the dict's key list. -/
theorem lookup_mem_keys {d : PyDict} {k : String} {v : Value}
    (h : d.lookup k = some v) : k ∈ d.map Prod.fst := by
  induction d with
  | nil => simp [List.lookup] at h
  | cons p t ih =>
    obtain ⟨a, w⟩ := p
    cases hb : k == a with
    | true => simp [beq_iff_eq.mp hb]
    | false =>
      simp only [List.lookup, hb] at h
      simpa using Or.inr (ih h)

/-- The `confidence` number read by `_merge_two_entities` under the
claim's shape hypothesis (a numeric confidence, or the 0.5 default). -/
theorem confOf_eq {a : PyDict} {qa : ℚ}
    (h : a.lookup "confidence" = some (.num qa) ∨
         (a.lookup "confidence" = none ∧ qa = 1 / 2)) :
    EntityMerger.confOf a = qa := by
  rcases h with h | ⟨h, rfl⟩ <;> simp [EntityMerger.confOf, h]

/-- Reconciled value of a key present in either input. -/
theorem mergeTwo_lookup {a b : PyDict} {k : String} (hk : k ≠ "confidence")
    (hmem : k ∈ (a.map Prod.fst ++ b.map Prod.fst).dedup) :
    (EntityMerger.mergeTwoEntities a b).lookup k =
      some (EntityMerger.mergeVal a b k) := by
  simp only [EntityMerger.mergeTwoEntities]
  rw [PyDict.lookup_set_ne _ _ _ _ hk, lookup_keyMap hmem]

/-- Reconciliation when only side A has the key. -/
theorem mergeVal_left {a b : PyDict} {k : String} {v : Value}
    (ha : a.lookup k = some v) (hb : b.lookup k = none) :
    EntityMerger.mergeVal a b k = v := by
  by_cases hv : v = .null <;>
    simp [EntityMerger.mergeVal, PyDict.getN, ha, hb, hv]

/-- Reconciliation when only side B has the key. -/
theorem mergeVal_right {a b : PyDict} {k : String} {v : Value}
    (ha : a.lookup k = none) (hb : b.lookup k = some v) :
    EntityMerger.mergeVal a b k = v := by
  by_cases hv : v = .null <;>
    simp [EntityMerger.mergeVal, PyDict.getN, ha, hb, hv]

/-- Reconciliation of a key numeric on both sides. -/
theorem mergeVal_num {a b : PyDict} {k : String} {x y : ℚ}
    (ha : a.lookup k = some (.num x)) (hb : b.lookup k = some (.num y)) :
    EntityMerger.mergeVal a b k =
      (if EntityMerger.confOf b ≤ EntityMerger.confOf a
       then Value.num x else Value.num y) := by
  simp [EntityMerger.mergeVal, PyDict.getN, ha, hb, EntityMerger.pyIsNumeric]

/-- Reconciliation of a key list-valued on both sides. -/
theorem mergeVal_arr {a b : PyDict} {k : String} {xs ys : List Value}
    (ha : a.lookup k = some (.arr xs)) (hb : b.lookup k = some (.arr ys)) :
    EntityMerger.mergeVal a b k = .arr ((xs ++ ys).dedup) := by
  simp [EntityMerger.mergeVal, PyDict.getN, ha, hb]

/-- C9: `_merge_two_entities` gives the merged record the maximum of the
two confidences (absent confidence counting as 0.5); every other key
present on exactly one side keeps that side's value; a key numeric on
both sides takes the value from the side with the higher confidence
(ties favour A); and a key list-valued on both sides becomes the set
union of the two lists. (The `confidence` key itself is governed by the
max rule, which overwrites the per-key reconciliation.) -/
theorem c9_merge_field_rules (a b : PyDict) (qa qb : ℚ)
    (ha : a.lookup "confidence" = some (.num qa) ∨
          (a.lookup "confidence" = none ∧ qa = 1 / 2))
    (hb : b.lookup "confidence" = some (.num qb) ∨
          (b.lookup "confidence" = none ∧ qb = 1 / 2)) :
    (EntityMerger.mergeTwoEntities a b).lookup "confidence" =
        some (.num (max qa qb)) ∧
    (∀ k v, k ≠ "confidence" → a.lookup k = some v → b.lookup k = none →
        (EntityMerger.mergeTwoEntities a b).lookup k = some v) ∧
    (∀ k v, k ≠ "confidence" → b.lookup k = some v → a.lookup k = none →
        (EntityMerger.mergeTwoEntities a b).lookup k = some v) ∧
    (∀ k x y, k ≠ "confidence" →
        a.lookup k = some (.num x) → b.lookup k = some (.num y) →
        (EntityMerger.mergeTwoEntities a b).lookup k =
          some (if qb ≤ qa then Value.num x else Value.num y)) ∧
    (∀ k xs ys, k ≠ "confidence" →
        a.lookup k = some (.arr xs) → b.lookup k = some (.arr ys) →
        ∃ zs, (EntityMerger.mergeTwoEntities a b).lookup k =
            some (.arr zs) ∧ zs.Nodup ∧
          ∀ v, v ∈ zs ↔ (v ∈ xs ∨ v ∈ ys)) := by
  have hca := confOf_eq ha
  have hcb := confOf_eq hb
  refine ⟨?_, ?_, ?_, ?_, ?_⟩
  · simp only [EntityMerger.mergeTwoEntities]
    rw [PyDict.lookup_set_self, hca, hcb]
  · intro k v hk hav hbn
    have hmem : k ∈ (a.map Prod.fst ++ b.map Prod.fst).dedup :=
      List.mem_dedup.mpr (List.mem_append_left _ (lookup_mem_keys hav))
    rw [mergeTwo_lookup hk hmem, mergeVal_left hav hbn]
  · intro k v hk hbv han
    have hmem : k ∈ (a.map Prod.fst ++ b.map Prod.fst).dedup :=
      List.mem_dedup.mpr (List.mem_append_right _ (lookup_mem_keys hbv))
    rw [mergeTwo_lookup hk hmem, mergeVal_right han hbv]
  · intro k x y hk hax hby
    have hmem : k ∈ (a.map Prod.fst ++ b.map Prod.fst).dedup :=
      List.mem_dedup.mpr (List.mem_append_left _ (lookup_mem_keys hax))
    rw [mergeTwo_lookup hk hmem, mergeVal_num hax hby, hca, hcb]
  · intro k xs ys hk hax hby
    have hmem : k ∈ (a.map Prod.fst ++ b.map Prod.fst).dedup :=
      List.mem_dedup.mpr (List.mem_append_left _ (lookup_mem_keys hax))
    refine ⟨(xs ++ ys).dedup, ?_, List.nodup_dedup _, ?_⟩
    · rw [mergeTwo_lookup hk hmem, mergeVal_arr hax hby]
    · intro v
      simp [List.mem_dedup]

/-- Witness for C9 on two small concrete entities. -/
theorem c9_merge_field_rules_witness :
    (([("name", Value.str "Jo"), ("tags", Value.arr [.num 1]),
       ("confidence", Value.num (3 / 10))] : PyDict).lookup "confidence" =
        some (.num (3 / 10)) ∨
      (([("name", Value.str "Jo"), ("tags", Value.arr [.num 1]),
         ("confidence", Value.num (3 / 10))] : PyDict).lookup "confidence" =
          none ∧ (3 / 10 : ℚ) = 1 / 2)) ∧
    ((([("tags", Value.arr [.num 2]), ("x", Value.num 5)] : PyDict).lookup
        "confidence" = some (.num (1 / 2)) ∨
      (([("tags", Value.arr [.num 2]), ("x", Value.num 5)] : PyDict).lookup
          "confidence" = none ∧ (1 / 2 : ℚ) = 1 / 2))) ∧
    (EntityMerger.mergeTwoEntities
        [("name", Value.str "Jo"), ("tags", Value.arr [.num 1]),
         ("confidence", Value.num (3 / 10))]
        [("tags", Value.arr [.num 2]), ("x", Value.num 5)]).lookup
      "confidence" = some (.num (max (3 / 10) (1 / 2))) :=
  ⟨Or.inl (by decide), Or.inr ⟨by decide, rfl⟩,
   (c9_merge_field_rules
      [("name", Value.str "Jo"), ("tags", Value.arr [.num 1]),
       ("confidence", Value.num (3 / 10))]
      [("tags", Value.arr [.num 2]), ("x", Value.num 5)]
      (3 / 10) (1 / 2)
      (Or.inl (by decide)) (Or.inr ⟨by decide, rfl⟩)).1⟩

namespace QueryRouter

theorem lookup_upsert_self (d : List (WorkerType × ExtractionResult))
    (t : WorkerType) (r : ExtractionResult) :
    (upsert d t r).lookup t = some r := by
  induction d with
  | nil => simp [upsert, List.lookup]
  | cons p rest ih =>
    obtain ⟨t', r'⟩ := p
    by_cases h : t' = t
    · simp [upsert, h, List.lookup]
    · cases hb : t == t' with
      | true => simp_all
      | false => simp [upsert, h, List.lookup, hb, ih]

theorem lookup_upsert_ne (d : List (WorkerType × ExtractionResult))
    (t u : WorkerType) (r : ExtractionResult) (h : u ≠ t) :
    (upsert d t r).lookup u = d.lookup u := by
  induction d with
  | nil =>
    cases hb : u == t with
    | true => simp_all
    | false => simp [upsert, List.lookup, hb]
  | cons p rest ih =>
    obtain ⟨t₀, r₀⟩ := p
    by_cases h₀ : t₀ = t
    · subst h₀
      cases hb : u == t₀ with
      | true => simp_all
      | false => simp [upsert, List.lookup, hb]
    · simp only [upsert, if_neg h₀]
      cases hb : u == t₀ with
      | true => simp [List.lookup, hb]
      | false => simp [List.lookup, hb, ih]

theorem mem_upsert {d : List (WorkerType × ExtractionResult)}
    {t : WorkerType} {r : ExtractionResult}
    {p : WorkerType × ExtractionResult} (h : p ∈ upsert d t r) :
    p = (t, r) ∨ p ∈ d := by
  induction d with
  | nil => simpa [upsert] using h
  | cons q rest ih =>
    obtain ⟨t₀, r₀⟩ := q
    by_cases h₀ : t₀ = t
    · subst h₀
      rcases List.mem_cons.mp (by simpa [upsert] using h) with h' | h'
      · exact Or.inl h'
      · exact Or.inr (List.mem_cons_of_mem _ h')
    · rcases List.mem_cons.mp (by simpa [upsert, h₀] using h) with h' | h'
      · exact Or.inr (h' ▸ List.mem_cons_self _ _)
      · rcases ih h' with h'' | h''
        · exact Or.inl h''
        · exact Or.inr (List.mem_cons_of_mem _ h'')

theorem lookupW_mem {d : List (WorkerType × ExtractionResult)}
    {t : WorkerType} {r : ExtractionResult} (h : d.lookup t = some r) :
    (t, r) ∈ d := by
  induction d with
  | nil => simp [List.lookup] at h
  | cons p rest ih =>
    obtain ⟨t₀, r₀⟩ := p
    cases hb : t == t₀ with
    | true =>
      simp only [List.lookup, hb] at h
      cases h
      simp [beq_iff_eq.mp hb]
    | false =>
      simp only [List.lookup, hb] at h
      exact List.mem_cons_of_mem _ (ih h)

/-- Every stored pair of the gathered results dict is a success of the
behaviour function. -/
theorem gather_fold_mem_ok {behav : WorkerBehavior}
    {p : WorkerType × ExtractionResult} :
    ∀ (types : List WorkerType) (acc : List (WorkerType × ExtractionResult)),
      (∀ q ∈ acc, behav q.1 = .ok q.2) →
      p ∈ types.foldl (gatherStep behav) acc →
      behav p.1 = .ok p.2 := by
  intro types
  induction types with
  | nil =>
    intro acc hacc hp
    exact hacc _ (by simpa using hp)
  | cons t rest ih =>
    intro acc hacc hp
    simp only [List.foldl_cons] at hp
    refine ih (gatherStep behav acc t) ?_ hp
    intro q hq
    unfold gatherStep at hq
    cases hbt : behav t with
    | ok r =>
      rw [hbt] at hq
      rcases mem_upsert hq with h' | h'
      · rw [h']; exact hbt
      · exact hacc _ h'
    | error e =>
      rw [hbt] at hq
      exact hacc _ hq

theorem gather_mem_ok {behav : WorkerBehavior} {types : List WorkerType}
    {p : WorkerType × ExtractionResult}
    (h : p ∈ gatherResults behav types) : behav p.1 = .ok p.2 :=
  gather_fold_mem_ok types [] (by simp) h

/-- A failed worker never appears in the gathered results. -/
theorem gather_lookup_none {behav : WorkerBehavior} {types : List WorkerType}
    {t : WorkerType} {msg : String} (hfail : behav t = .error msg) :
    (gatherResults behav types).lookup t = none := by
  cases hl : (gatherResults behav types).lookup t with
  | none => rfl
  | some r =>
    have hok := gather_mem_ok (lookupW_mem hl)
    rw [hfail] at hok
    cases hok

/-- A successful worker's result is stored under its type. -/
theorem gather_fold_lookup_ok {behav : WorkerBehavior} {t : WorkerType}
    {res : ExtractionResult} (hok : behav t = .ok res) :
    ∀ (types : List WorkerType) (acc : List (WorkerType × ExtractionResult)),
      (t ∈ types ∨ acc.lookup t = some res) →
      (types.foldl (gatherStep behav) acc).lookup t = some res := by
  intro types
  induction types with
  | nil =>
    intro acc h
    rcases h with h | h
    · simp at h
    · simpa using h
  | cons u rest ih =>
    intro acc h
    simp only [List.foldl_cons]
    rcases h with h | h
    · rcases List.mem_cons.mp h with h' | h'
      · subst h'
        refine ih _ (Or.inr ?_)
        simp only [gatherStep, hok]
        exact lookup_upsert_self _ _ _
      · exact ih _ (Or.inl h')
    · refine ih _ (Or.inr ?_)
      unfold gatherStep
      cases hbu : behav u with
      | ok r =>
        by_cases htu : t = u
        · subst htu
          rw [hok] at hbu
          cases hbu
          exact lookup_upsert_self _ _ _
        · exact (lookup_upsert_ne _ _ _ _ htu).trans h
      | error e => exact h

theorem gather_lookup_ok {behav : WorkerBehavior} {types : List WorkerType}
    {t : WorkerType} {res : ExtractionResult}
    (hok : behav t = .ok res) (hmem : t ∈ types) :
    (gatherResults behav types).lookup t = some res :=
  gather_fold_lookup_ok hok types [] (Or.inl hmem)

end QueryRouter

/-- Distinct worker types have distinct enum string values. -/
theorem WorkerType.value_inj {a b : WorkerType} (h : a.value = b.value) :
    a = b := by
  cases a <;> cases b <;> revert h <;> decide

/-- C6: if one selected worker's `extract` raises, `route` still returns
a `RoutingResult` in which that worker is absent from the results, every
other selected worker's successful result is present, and no combined
entity is tagged with the failed worker's category — one worker's
failure never aborts the others' results. -/
theorem c6_failed_worker_isolated (behav : WorkerBehavior)
    (types : List WorkerType) (t : WorkerType) (msg : String)
    (hfail : behav t = .error msg) :
    (QueryRouter.routeWorkers behav types).results.lookup t = none ∧
    (∀ t' res, t' ∈ types → behav t' = .ok res →
        (QueryRouter.routeWorkers behav types).results.lookup t' = some res) ∧
    (∀ e ∈ (QueryRouter.routeWorkers behav types).combined_entities,
        e.lookup "_source_worker" ≠ some (.str t.value)) := by
  refine ⟨QueryRouter.gather_lookup_none hfail, ?_, ?_⟩
  · intro t' res hmem hok
    exact QueryRouter.gather_lookup_ok hok hmem
  · intro e he
    simp only [QueryRouter.routeWorkers, QueryRouter.combineEntities,
      List.mem_flatMap, List.mem_map] at he
    obtain ⟨p, hp, e0, _, he0⟩ := he
    have hworker : e.lookup "_source_worker" = some (.str p.1.value) := by
      rw [← he0, PyDict.lookup_set_ne _ _ _ _ (by decide),
        PyDict.lookup_set_self]
    rw [hworker]
    intro hc
    have hv : p.1.value = t.value := by
      injection hc with hc'
      injection hc' with hc''
    have hpt : p.1 = t := WorkerType.value_inj hv
    have hok := QueryRouter.gather_mem_ok hp
    rw [hpt, hfail] at hok
    cases hok

/-- Witness for C6: the date worker fails, the person worker succeeds. -/
theorem c6_failed_worker_isolated_witness :
    ((fun t => if t = WorkerType.date
        then (Except.error "boom" : Except String ExtractionResult)
        else .ok ⟨.person, [], 0, "", []⟩) WorkerType.date =
      .error "boom") ∧
    (QueryRouter.routeWorkers
        (fun t => if t = WorkerType.date
          then (Except.error "boom" : Except String ExtractionResult)
          else .ok ⟨.person, [], 0, "", []⟩)
        [WorkerType.date, WorkerType.person]).results.lookup
      WorkerType.date = none :=
  ⟨rfl,
   (c6_failed_worker_isolated
      (fun t => if t = WorkerType.date
        then (Except.error "boom" : Except String ExtractionResult)
        else .ok ⟨.person, [], 0, "", []⟩)
      [WorkerType.date, WorkerType.person] WorkerType.date "boom" rfl).1⟩

/-- C8: amount normalization is scale-multiplicative — the pattern sweep
of `parse_response` on `"$2 million"` yields one entity normalized to
2,000,000 USD, on `"$2,000,000"` one entity with the same normalized
value, and `_amount_similarity` of those two entities is exactly 1.0
with reason `exact_amount`. -/
theorem c8_amount_scale_multiplicative :
    AmountWorker.parseResponse "$2 million" =
      [[("amount_string", .str "$2 million"), ("amount", .num 2),
        ("currency", .str "USD"), ("multiplier", .str "million"),
        ("normalized_value", .num 2000000),
        ("amount_type", .str "currency"), ("context", .str ""),
        ("confidence", .num (9 / 10))]] ∧
    AmountWorker.parseResponse "$2,000,000" =
      [[("amount_string", .str "$2,000,000"), ("amount", .num 2000000),
        ("currency", .str "USD"), ("multiplier", .null),
        ("normalized_value", .num 2000000),
        ("amount_type", .str "currency"), ("context", .str ""),
        ("confidence", .num (9 / 10))]] ∧
    ((AmountWorker.parseResponse "$2 million").getD 0 []).lookup
        "normalized_value" = some (.num 2000000) ∧
    ((AmountWorker.parseResponse "$2,000,000").getD 0 []).lookup
        "normalized_value" = some (.num 2000000) ∧
    EntityMerger.amountSimilarity
        ((AmountWorker.parseResponse "$2 million").getD 0 [])
        ((AmountWorker.parseResponse "$2,000,000").getD 0 []) =
      (1, "exact_amount") := by
  refine ⟨?_, ?_, ?_, ?_, ?_⟩ <;> decide

namespace DateWorker

/-- Facts about a rendered decimal digit character. -/
theorem digitFacts (k : ℕ) (hk : k < 10) :
    (Char.ofNat ('0'.toNat + k)).isDigit = true ∧
    digitVal (Char.ofNat ('0'.toNat + k)) = k ∧
    Char.ofNat ('0'.toNat + k) ≠ '/' ∧
    Char.ofNat ('0'.toNat + k) ≠ '-' ∧
    (Char.ofNat ('0'.toNat + k)).isWhitespace = false := by
  interval_cases k <;> refine ⟨by decide, by decide, by decide, by decide, by decide⟩

/-- A `%m` reading consumes one or two characters. -/
theorem readMonth2_rest_cons {v : ℕ} {rest : List Char} {c1 c2 : Char}
    {t : List Char} (h : (v, rest) ∈ readMonth2 (c1 :: c2 :: t)) :
    rest = t ∨ rest = c2 :: t := by
  simp only [readMonth2, List.mem_append] at h
  rcases h with (h | h) | h <;> split_ifs at h <;> simp at h <;>
    simp [h.2]

/-- A literal directive fails on a different character. -/
theorem parseToks_lit_ne {c c' : Char} {toks : List FTok}
    {rest : List Char} {p : DParts} (h : c' ≠ c) :
    parseToks (.lit c :: toks) (c' :: rest) p = none := by
  simp [parseToks, h]

/-- `%m` followed by a literal separator fails when neither of the next
two characters is that separator. -/
theorem parseToks_m2_lit_none {sep : Char} {toks : List FTok}
    {c1 c2 c3 : Char} {t : List Char} {p : DParts}
    (h2 : c2 ≠ sep) (h3 : c3 ≠ sep) :
    parseToks (.m2 :: .lit sep :: toks) (c1 :: c2 :: c3 :: t) p = none := by
  simp only [parseToks, firstSome]
  rw [List.findSome?_eq_none_iff]
  rintro ⟨v, rest⟩ hmem
  rcases readMonth2_rest_cons hmem with h | h <;> subst h
  · exact parseToks_lit_ne h3
  · exact parseToks_lit_ne h2

/-- `%Y` reads exactly the four rendered digits of a year ≤ 9999. -/
theorem readYear4_pad4 (y : ℕ) (hy : y ≤ 9999) (r : List Char) :
    readYear4 (pad4 y ++ r) = [(y, r)] := by
  obtain ⟨ha, hva, -, -, -⟩ := digitFacts (y / 1000 % 10) (Nat.mod_lt _ (by norm_num))
  obtain ⟨hb, hvb, -, -, -⟩ := digitFacts (y / 100 % 10) (Nat.mod_lt _ (by norm_num))
  obtain ⟨hc, hvc, -, -, -⟩ := digitFacts (y / 10 % 10) (Nat.mod_lt _ (by norm_num))
  obtain ⟨hd, hvd, -, -, -⟩ := digitFacts (y % 10) (Nat.mod_lt _ (by norm_num))
  simp only [pad4, List.cons_append, List.nil_append, readYear4]
  rw [if_pos ⟨ha, hb, hc, hd⟩, hva, hvb, hvc, hvd]
  have : ((y / 1000 % 10 * 10 + y / 100 % 10) * 10 + y / 10 % 10) * 10 + y % 10 = y := by
    omega
  rw [this]

/-- `%m` reads the two rendered digits of a month as its first
alternative. -/
theorem readMonth2_pad2 (m : ℕ) (h1 : 1 ≤ m) (h2 : m ≤ 12)
    (r : List Char) :
    ∃ t, readMonth2 (pad2 m ++ r) = (m, r) :: t := by
  interval_cases m <;> exact ⟨_, rfl⟩

/-- `%d` reads the two rendered digits of a day as its first
alternative. -/
theorem readDay2_pad2 (d : ℕ) (h1 : 1 ≤ d) (h2 : d ≤ 31)
    (r : List Char) :
    ∃ t, readDay2 (pad2 d ++ r) = (d, r) :: t := by
  interval_cases d <;> exact ⟨_, rfl⟩

theorem dropWhile_eq_self_of_none {p : Char → Bool} {cs : List Char}
    (h : ∀ c ∈ cs, p c = false) : cs.dropWhile p = cs := by
  cases cs with
  | nil => rfl
  | cons c t => simp [List.dropWhile_cons, h c (List.mem_cons_self _ _)]

/-- `strip` is the identity on whitespace-free text. -/
theorem pyStrip_eq_self {cs : List Char}
    (h : ∀ c ∈ cs, c.isWhitespace = false) : pyStrip cs = cs := by
  unfold pyStrip
  rw [dropWhile_eq_self_of_none h,
    dropWhile_eq_self_of_none (fun c hc => h c (List.mem_reverse.mp hc)),
    List.reverse_reverse]

/-- Months fit in 31 days at most. -/
theorem daysInMonth_le_31 (y m : ℕ) : daysInMonth y m ≤ 31 := by
  unfold daysInMonth
  split_ifs <;> norm_num

/-- The rendered ISO form of a valid date contains no whitespace. -/
theorem isoChars_no_ws (y m d : ℕ) :
    ∀ c ∈ pad4 y ++ '-' :: (pad2 m ++ '-' :: pad2 d),
      c.isWhitespace = false := by
  intro c hc
  have hdig : ∀ (k : ℕ), c = Char.ofNat ('0'.toNat + k % 10) →
      c.isWhitespace = false := by
    intro k hk
    obtain ⟨-, -, -, -, hw⟩ := digitFacts (k % 10) (Nat.mod_lt _ (by norm_num))
    rw [hk]; exact hw
  simp only [pad4, pad2, List.cons_append, List.nil_append, List.mem_cons,
    List.not_mem_nil, or_false] at hc
  rcases hc with h | h | h | h | h | h | h | h | h | h
  · exact hdig (y / 1000) (by rw [h])
  · exact hdig (y / 100) (by rw [h])
  · exact hdig (y / 10) (by rw [h])
  · exact hdig y (by rw [h])
  · rw [h]; decide
  · exact hdig (m / 10) (by rw [h])
  · exact hdig m (by rw [h])
  · rw [h]; decide
  · exact hdig (d / 10) (by rw [h])
  · exact hdig d (by rw [h])


/-- Re-parsing the ISO rendering of a valid date whose year is at least
1000 recovers the same date: the first two formats (`%m/%d/%Y`,
`%m-%d-%Y`) fail on it and the third (`%Y-%m-%d`) matches exactly. -/
theorem parseDateAny_iso (d : PyDate)
    (hv : validDate d.year d.month d.day = true) (hy : 1000 ≤ d.year) :
    parseDateAny (isoFormat d) = some d := by
  obtain ⟨y, m, day⟩ := d
  dsimp only at hv hy ⊢
  have hvb := hv
  simp only [validDate, Bool.and_eq_true, decide_eq_true_eq] at hvb
  obtain ⟨⟨⟨⟨⟨h1, h2⟩, h3⟩, h4⟩, h5⟩, h6⟩ := hvb
  have h31 : day ≤ 31 := le_trans h6 (daysInMonth_le_31 y m)
  obtain ⟨-, -, hbS, hbD, -⟩ :=
    digitFacts (y / 100 % 10) (Nat.mod_lt _ (by norm_num))
  obtain ⟨-, -, hcS, hcD, -⟩ :=
    digitFacts (y / 10 % 10) (Nat.mod_lt _ (by norm_num))
  obtain ⟨tm, hm2⟩ := readMonth2_pad2 m h3 h4 ('-' :: pad2 day)
  obtain ⟨td, hd2⟩ := readDay2_pad2 day h5 h31 []
  rw [List.append_nil] at hd2
  have hdata : (isoFormat ⟨y, m, day⟩).data
      = pad4 y ++ '-' :: (pad2 m ++ '-' :: pad2 day) := by
    simp [isoFormat, yearStr, hy]
  have hstrip : pyStrip (pad4 y ++ '-' :: (pad2 m ++ '-' :: pad2 day))
      = pad4 y ++ '-' :: (pad2 m ++ '-' :: pad2 day) :=
    pyStrip_eq_self (isoChars_no_ws y m day)
  have hf1 : parseFmt [.m2, .lit '/', .d2, .lit '/', .y4]
      (pad4 y ++ '-' :: (pad2 m ++ '-' :: pad2 day)) = none := by
    simp only [parseFmt, pad4, List.cons_append, List.nil_append]
    rw [parseToks_m2_lit_none hbS hcS]
  have hf2 : parseFmt [.m2, .lit '-', .d2, .lit '-', .y4]
      (pad4 y ++ '-' :: (pad2 m ++ '-' :: pad2 day)) = none := by
    simp only [parseFmt, pad4, List.cons_append, List.nil_append]
    rw [parseToks_m2_lit_none hbD hcD]
  have hrun : parseToks [.y4, .lit '-', .m2, .lit '-', .d2]
      (pad4 y ++ '-' :: (pad2 m ++ '-' :: pad2 day)) {}
      = some ⟨y, m, day⟩ := by
    simp [parseToks, firstSome, readYear4_pad4 y h2, hm2, hd2,
      List.findSome?_cons]
  have hf3 : parseFmt [.y4, .lit '-', .m2, .lit '-', .d2]
      (pad4 y ++ '-' :: (pad2 m ++ '-' :: pad2 day)) = some ⟨y, m, day⟩ := by
    simp [parseFmt, hrun, hv]
  unfold parseDateAny
  simp only [hdata, hstrip, fmtTokens, List.findSome?_cons, hf1, hf2, hf3]

/-- Any date produced by `parseDateAny` passed the `datetime`
constructor's validation. -/
theorem parseDateAny_valid {s : String} {d : PyDate}
    (h : parseDateAny s = some d) :
    validDate d.year d.month d.day = true := by
  unfold parseDateAny at h
  obtain ⟨toks, -, hf⟩ := List.exists_of_findSome?_eq_some h
  unfold parseFmt at hf
  cases hps : parseToks toks (pyStrip s.data) {} with
  | none => rw [hps] at hf; cases hf
  | some p =>
    rw [hps] at hf
    dsimp only at hf
    by_cases hvd : validDate p.y p.m p.d = true
    · rw [if_pos hvd] at hf
      cases hf
      exact hvd
    · rw [if_neg hvd] at hf; cases hf

end DateWorker

/-- **C7** counterexample: "0500-01-02" parses under `%Y-%m-%d` to the
date 500-01-02, but glibc `strftime('%Y')` renders years below 1000
without zero padding, so `_normalize_date` returns "500-01-02" — and
that normalized output matches none of the supported formats (`%Y`
requires four digits), so re-parsing it yields no date at all. The
claimed round trip therefore fails. -/
theorem c7_roundtrip_counterexample :
    DateWorker.parseDateAny "0500-01-02" = some ⟨500, 1, 2⟩ ∧
    DateWorker.normalizeDate "0500-01-02" = some "500-01-02" ∧
    DateWorker.parseDateAny "500-01-02" = none := by
  refine ⟨?_, ?_, ?_⟩ <;> rfl

/-- **C7** (amended): for every date string that parses under one of
the supported formats to a date whose year is at least 1000,
normalizing renders the ISO form `YYYY-MM-DD`, and re-parsing that
normalized string with the same ordered format list yields the same
calendar date. -/
theorem c7_normalize_roundtrip (s : String) (d : DateWorker.PyDate)
    (h : DateWorker.parseDateAny s = some d) (hy : 1000 ≤ d.year) :
    DateWorker.normalizeDate s = some (DateWorker.isoFormat d) ∧
      DateWorker.parseDateAny (DateWorker.isoFormat d) = some d := by
  refine ⟨?_, DateWorker.parseDateAny_iso d (DateWorker.parseDateAny_valid h) hy⟩
  unfold DateWorker.normalizeDate
  rw [h]
  rfl

/-- Witness for **C7** (amended) at "3/15/2024". -/
theorem c7_normalize_roundtrip_witness :
    DateWorker.parseDateAny "3/15/2024" = some ⟨2024, 3, 15⟩ ∧
      1000 ≤ (2024 : ℕ) ∧
      DateWorker.normalizeDate "3/15/2024" =
        some (DateWorker.isoFormat ⟨2024, 3, 15⟩) ∧
      DateWorker.parseDateAny (DateWorker.isoFormat ⟨2024, 3, 15⟩) =
        some ⟨2024, 3, 15⟩ :=
  ⟨by rfl, by decide,
    c7_normalize_roundtrip "3/15/2024" ⟨2024, 3, 15⟩ (by rfl) (by decide)⟩
